import Mathlib

/-!
# Subscriptions service

A shallow embedding of `internal/subscriptions/service.go`: the windowed cost
sum (`CountSubscriptionSum`, `diffMonthsInclusive`, `maxTime`), the pagination
of `ListSubscriptions`, and the validation paths of `UpdateSubscription` and
`CreateSubscription`.

Conventions of the embedding.

* A `time.Time` is represented by its civil fields in one fixed zone (UTC, the
  zone `time.Parse` assigns when the layout has none): `Before` and `After`
  compare the fields lexicographically, `Date()` reads them back.
* Go's `int` is 64 bits wide.  The loop of `CountSubscriptionSum` multiplies and
  adds in `int`, and the offset of `ListSubscriptions` is an `int` product: each
  such operation is the exact operation followed by `wrapInt`, the reduction to
  the two's-complement range.  `sumLoopExact` is the same loop without the
  reduction, for the statements made in exact integer arithmetic.
* Library functions the handlers call (`uuid.Parse`, `uuid.New`, `time.Parse`)
  are fields of `Libs`; the relational store is a table of rows together with a
  flag telling whether statements succeed.
-/

namespace Subscriptions

/-! ## Time -/

/-- Calendar months, Go's `time.Month`: `January = 1`, ..., `December = 12`. -/
inductive Month
  | January | February | March | April | May | June
  | July | August | September | October | November | December
  deriving DecidableEq, Repr

/-- Integer value of a `time.Month`. -/
def Month.toInt : Month → Int
  | .January => 1
  | .February => 2
  | .March => 3
  | .April => 4
  | .May => 5
  | .June => 6
  | .July => 7
  | .August => 8
  | .September => 9
  | .October => 10
  | .November => 11
  | .December => 12

/-- A `time.Time` in a fixed zone: year, month, day of the month and the
nanoseconds elapsed since midnight. -/
structure Time where
  year : Int
  month : Month
  day : Nat
  nanos : Nat
  deriving DecidableEq, Repr

/-- Go's `t.Before(u)`: the instant `t` is strictly earlier than `u`. -/
def Time.Before (t u : Time) : Prop :=
  t.year < u.year ∨ (t.year = u.year ∧
    (t.month.toInt < u.month.toInt ∨ (t.month.toInt = u.month.toInt ∧
      (t.day < u.day ∨ (t.day = u.day ∧ t.nanos < u.nanos)))))

instance Time.decBefore (t u : Time) : Decidable (t.Before u) := by
  unfold Time.Before
  infer_instance

/-- Go's `t.After(u)`: the instant `t` is strictly later than `u`. -/
def Time.After (t u : Time) : Prop := u.Before t

instance Time.decAfter (t u : Time) : Decidable (t.After u) := by
  unfold Time.After
  infer_instance

/-- The value `time.Parse("01-2006", ..)` produces for a month of a year: the
first day of that month at midnight. -/
def monthStart (y : Int) (m : Month) : Time := ⟨y, m, 1, 0⟩

/-- A date is month-normalized when it is the first instant of its month. -/
def Time.monthNormalized (t : Time) : Prop := t.day = 1 ∧ t.nanos = 0

/-! ## Data model (`model.go`) -/

/-- The `Subscription` record; identifiers are kept in textual form. -/
structure Subscription where
  ID : String
  ServiceName : String
  Price : Int
  UserID : String
  StartDate : Time
  EndDate : Option Time
  deriving DecidableEq, Repr

/-! ## The range of `int` -/

/-- Width of Go's `int` and `int64` on the 64-bit targets the service is built for. -/
def intSize : Nat := 64

/-- Largest `int`: `1<<63 - 1`. -/
def maxInt : Int := 2 ^ (intSize - 1) - 1

/-- Smallest `int`: `-1<<63`. -/
def minInt : Int := -(2 ^ (intSize - 1))

/-- Reduction of an exact integer to the two's-complement `int` Go stores: the
result of an `int` operation whose exact value is `x`. -/
def wrapInt (x : Int) : Int :=
  (x + 2 ^ (intSize - 1)) % 2 ^ intSize - 2 ^ (intSize - 1)

/-! ## The sum loop of `CountSubscriptionSum` -/

/-- Source `diffMonthsInclusive`: `(y2-y1)*12 + int(m2-m1) + 1`. -/
def diffMonthsInclusive (a b : Time) : Int :=
  (b.year - a.year) * 12 + (b.month.toInt - a.month.toInt) + 1

/-- Source `maxTime`: `a` when `a.After(b)`, else `b`. -/
def maxTime (a b : Time) : Time :=
  if a.After b then a else b

/-- The variable `start` of the loop body: `maxTime(s.StartDate, periodStart)`. -/
def loopStart (periodStart : Time) (s : Subscription) : Time :=
  maxTime s.StartDate periodStart

/-- The variable `endTime` of the loop body: `periodEnd`, replaced by the
subscription's end date when that one is present and before `periodEnd`. -/
def loopEnd (periodEnd : Time) (s : Subscription) : Time :=
  match s.EndDate with
  | some e => if e.Before periodEnd then e else periodEnd
  | none => periodEnd

/-- The guard `start.After(endTime)` that makes the loop `continue`. -/
def skipped (periodStart periodEnd : Time) (s : Subscription) : Prop :=
  (loopStart periodStart s).After (loopEnd periodEnd s)

instance skipped.dec (periodStart periodEnd : Time) (s : Subscription) :
    Decidable (skipped periodStart periodEnd s) := by
  unfold skipped
  infer_instance

/-- The variable `months` of the loop body (computed when the guard lets the
subscription through). -/
def loopMonths (periodStart periodEnd : Time) (s : Subscription) : Int :=
  diffMonthsInclusive (loopStart periodStart s) (loopEnd periodEnd s)

/-- One iteration of the loop `for _, s := range items`, as a function of the
running `sum`: `contribution := s.Price * months` and `sum += contribution` are
`int` operations. -/
def sumStep (periodStart periodEnd : Time) (sum : Int) (s : Subscription) : Int :=
  if skipped periodStart periodEnd s then sum
  else
    let months := loopMonths periodStart periodEnd s
    let contribution := wrapInt (s.Price * months)
    wrapInt (sum + contribution)

/-- The loop of `CountSubscriptionSum`: `sum := 0`, then one step per item. -/
def sumLoop (periodStart periodEnd : Time) (items : List Subscription) : Int :=
  items.foldl (sumStep periodStart periodEnd) 0

/-- What the loop adds to `sum` for one subscription. -/
def contributionOf (periodStart periodEnd : Time) (s : Subscription) : Int :=
  sumStep periodStart periodEnd 0 s

/-- One iteration of the loop in exact integer arithmetic: the step of the
source without the reduction to the range of `int`. -/
def sumStepExact (periodStart periodEnd : Time) (sum : Int) (s : Subscription) : Int :=
  if skipped periodStart periodEnd s then sum
  else
    let months := loopMonths periodStart periodEnd s
    let contribution := s.Price * months
    sum + contribution

/-- The loop in exact integer arithmetic, the sum the statements that leave
machine-integer overflow aside are about. -/
def sumLoopExact (periodStart periodEnd : Time) (items : List Subscription) : Int :=
  items.foldl (sumStepExact periodStart periodEnd) 0

/-- What the loop in exact integer arithmetic adds for one subscription. -/
def contributionExact (periodStart periodEnd : Time) (s : Subscription) : Int :=
  sumStepExact periodStart periodEnd 0 s

/-! ## The contribution as the specification words it -/

/-- Later of two instants. -/
def specMax (a b : Time) : Time := if a.Before b then b else a

/-- Earlier of two instants. -/
def specMin (a b : Time) : Time := if b.Before a then b else a

/-- Step 1 of the specification: `effectiveStart = max(startDate, periodStart)`. -/
def specEffectiveStart (periodStart : Time) (s : Subscription) : Time :=
  specMax s.StartDate periodStart

/-- Step 2 of the specification: `effectiveEnd = min(periodEnd, endDate)`, an
absent end date standing for plus infinity. -/
def specEffectiveEnd (periodEnd : Time) (s : Subscription) : Time :=
  match s.EndDate with
  | none => periodEnd
  | some e => specMin periodEnd e

/-- Steps 3 to 5 of the specification: `0` when `effectiveStart > effectiveEnd`,
else `price * ((year difference) * 12 + (month difference) + 1)`. -/
def specContribution (periodStart periodEnd : Time) (s : Subscription) : Int :=
  let es := specEffectiveStart periodStart s
  let ee := specEffectiveEnd periodEnd s
  if ee.Before es then 0
  else s.Price * ((ee.year - es.year) * 12 + (ee.month.toInt - es.month.toInt) + 1)

/-- The aggregate of the specification: the sum of the contributions. -/
def specSum (periodStart periodEnd : Time) (items : List Subscription) : Int :=
  (items.map (specContribution periodStart periodEnd)).sum

/-! ## Strings and integers of the Go runtime -/

/-- Go's `unicode.IsSpace`: the code points with the White_Space property. -/
def isSpace (c : Char) : Bool :=
  let n := c.toNat
  n == 0x09 || n == 0x0A || n == 0x0B || n == 0x0C || n == 0x0D || n == 0x20 ||
  n == 0x85 || n == 0xA0 || n == 0x1680 || (0x2000 ≤ n && n ≤ 0x200A) ||
  n == 0x2028 || n == 0x2029 || n == 0x202F || n == 0x205F || n == 0x3000

/-- Go's `strings.TrimSpace`: drop the leading and the trailing white space. -/
def TrimSpace (s : String) : String :=
  String.mk ((s.data.dropWhile isSpace).reverse.dropWhile isSpace).reverse

/-- Value of a decimal digit, `none` for any other character. -/
def digitVal (c : Char) : Option Nat :=
  if 48 ≤ c.toNat ∧ c.toNat ≤ 57 then some (c.toNat - 48) else none

/-- Decimal value of a run of digits, `none` as soon as a character is not one. -/
def parseDigits : List Char → Nat → Option Nat
  | [], acc => some acc
  | c :: cs, acc =>
    match digitVal c with
    | none => none
    | some d => parseDigits cs (acc * 10 + d)

/-- The digits of `strconv.Atoi` once the sign has been read: at least one
decimal digit and nothing else; a value outside `int` is a range error. -/
def atoiDigits (neg : Bool) (ds : List Char) : Option Int :=
  match ds with
  | [] => none
  | _ :: _ =>
    match parseDigits ds 0 with
    | none => none
    | some n =>
      let v : Int := if neg then -(n : Int) else (n : Int)
      if minInt ≤ v ∧ v ≤ maxInt then some v else none

/-- Go's `strconv.Atoi`, `none` standing for a non-nil error: an optional sign
`+` or `-`, then the digits. -/
def Atoi (s : String) : Option Int :=
  match s.data with
  | [] => none
  | c :: cs =>
    if c = '-' then atoiDigits true cs
    else if c = '+' then atoiDigits false cs
    else atoiDigits false (c :: cs)

/-! ## Library functions and the store -/

/-- Library functions the handlers call.  `uuidParse` is `uuid.Parse` (`none` for
an error, else the textual form of the identifier), `uuidNew` the identifier
`uuid.New()` draws, `timeParse` is `time.Parse("01-2006", ..)`. -/
structure Libs where
  uuidParse : String → Option String
  uuidNew : String
  timeParse : String → Option Time

/-- The relational store: the rows of the subscriptions table, and whether
statements currently succeed (`false`: every statement returns an error and
changes nothing). -/
structure DB where
  rows : List Subscription
  healthy : Bool
  deriving DecidableEq, Repr

/-- The staged map `updates` of `UpdateSubscription`: one optional entry for
each of the five keys the handler may set. -/
structure Updates where
  service_name : Option String
  price : Option Int
  user_id : Option String
  start_date : Option Time
  end_date : Option Time
  deriving DecidableEq, Repr

/-- The empty map `map[string]interface{}{}`. -/
def Updates.empty : Updates := ⟨none, none, none, none, none⟩

/-- Number of keys of the map: `len(updates)`. -/
def Updates.len (u : Updates) : Nat :=
  (if u.service_name.isSome then 1 else 0) + (if u.price.isSome then 1 else 0) +
  (if u.user_id.isSome then 1 else 0) + (if u.start_date.isSome then 1 else 0) +
  (if u.end_date.isSome then 1 else 0)

/-- Effect of `Updates(updates)` on one row: the columns named by the map take
the staged values, the other columns are left as they are. -/
def Updates.apply (u : Updates) (r : Subscription) : Subscription :=
  { ID := r.ID
    ServiceName := u.service_name.getD r.ServiceName
    Price := u.price.getD r.Price
    UserID := u.user_id.getD r.UserID
    StartDate := u.start_date.getD r.StartDate
    EndDate := match u.end_date with
      | some e => some e
      | none => r.EndDate }

/-- Statement `db.Create(&subscription)`: `none` for an error. -/
def DB.Create (db : DB) (s : Subscription) : Option DB :=
  if db.healthy then some { db with rows := db.rows ++ [s] } else none

/-- Statement `db.Model(..).Where("id = ?", id).Updates(updates)`. -/
def DB.Updates (db : DB) (id : String) (u : Updates) : Option DB :=
  if db.healthy then
    some { db with rows := db.rows.map (fun r => if r.ID = id then u.apply r else r) }
  else none

/-- Statement `db.First(&item, "id = ?", id)`: an error when the store fails or
no row has the identifier. -/
def DB.First (db : DB) (id : String) : Option Subscription :=
  if db.healthy then db.rows.find? (fun r => r.ID = id) else none

/-- Rows selected by the optional filters of `ListSubscriptions`; an empty
string stands for an absent filter. -/
def listFilter (userID serviceName : String) (r : Subscription) : Bool :=
  (userID = "" || r.UserID = userID) && (serviceName = "" || r.ServiceName = serviceName)

/-- The store-side candidate condition of `CountSubscriptionSum`:
`start_date <= periodEnd AND (end_date IS NULL OR end_date >= periodStart)`. -/
def candidate (periodStart periodEnd : Time) (s : Subscription) : Prop :=
  ¬ periodEnd.Before s.StartDate ∧
    match s.EndDate with
    | none => True
    | some e => ¬ e.Before periodStart

instance candidate.dec (periodStart periodEnd : Time) (s : Subscription) :
    Decidable (candidate periodStart periodEnd s) := by
  unfold candidate
  cases s.EndDate <;> infer_instance

/-- The rows of a user, narrowed by the service name when one is given: the
part `user_id = ?` (and `service_name = ?`) of the query. -/
def ownedBy (userid serviceName : String) (s : Subscription) : Bool :=
  s.UserID = userid && (serviceName = "" || s.ServiceName = serviceName)

/-- The query of `CountSubscriptionSum`:
`user_id = ? AND start_date <= ? AND (end_date IS NULL OR end_date >= ?)` with
the arguments `userid, periodEnd, periodStart`, and `service_name = ?` when the
service name is not empty.  `none` for an error. -/
def DB.FindCandidates (db : DB) (userid serviceName : String)
    (periodStart periodEnd : Time) : Option (List Subscription) :=
  if db.healthy then
    some (db.rows.filter (fun s =>
      ownedBy userid serviceName s && decide (candidate periodStart periodEnd s)))
  else none

/-! ## Responses -/

/-- The pagination block of the list response. -/
structure Pagination where
  page : Int
  limit : Int
  total : Int
  total_pages : Int
  has_next : Bool
  has_prev : Bool
  deriving DecidableEq, Repr

/-- Bodies the handlers send. -/
inductive Body
  | error (msg : String)
  | subscription (s : Subscription)
  | sum (n : Int)
  | list (data : List Subscription) (pagination : Pagination)
  | empty
  deriving DecidableEq, Repr

/-- An HTTP response: status code and body. -/
structure Response where
  status : Nat
  body : Body
  deriving DecidableEq, Repr

/-- What running a handler yields: a response, or a panic that unwinds out of it. -/
inductive HandlerResult
  | responded (r : Response)
  | panicked
  deriving DecidableEq, Repr

/-- The application of `main.go` around a handler: `recover.New()` turns a panic
into an error, which the configured `ErrorHandler` answers with status 500. -/
def serve (r : HandlerResult) : Response :=
  match r with
  | .responded resp => resp
  | .panicked => ⟨500, .error "internal server error"⟩

/-- The JSON body of create and update requests. -/
structure createSubscriptionRequest where
  ServiceName : String
  Price : Int
  UserID : String
  StartDate : String
  EndDate : String
  deriving DecidableEq, Repr

/-! ## `ListSubscriptions` -/

/-- The variable `page` after the query string has been read: `1`, replaced by
the parsed value when the string is not empty, `Atoi` succeeds and `p > 0`. -/
def resolvePage (pStr : String) : Int :=
  if pStr ≠ "" then
    match Atoi pStr with
    | some p => if p > 0 then p else 1
    | none => 1
  else 1

/-- The variable `limit` after the query string has been read: `10`, replaced by
the parsed value when the string is not empty, `Atoi` succeeds, `l > 0` and
`l <= 100`. -/
def resolveLimit (lStr : String) : Int :=
  if lStr ≠ "" then
    match Atoi lStr with
    | some l => if l > 0 ∧ l ≤ 100 then l else 10
    | none => 10
  else 10

/-- The statement `offset := (page - 1) * limit` on `int`s.  `page` comes from
the query string and may be any positive `int`, so both operations are reduced
to the `int` range. -/
def pageOffset (page limit : Int) : Int :=
  wrapInt (wrapInt (page - 1) * limit)

/-- The statements
`totalPages := (total + int64(limit) - 1) / int64(limit)`,
`hasNext := int64(page) < totalPages`, `hasPrev := page > 1`
and the pagination block built from them.  `total` is the row count the store
reports; `total + limit - 1` is embedded exactly (it stays inside `int64` for
every count up to `2^63 - 100`) and `/` is Go's truncating division. -/
def paginationOf (page limit total : Int) : Pagination :=
  let totalPages := Int.tdiv (total + limit - 1) limit
  let hasNext := decide (page < totalPages)
  let hasPrev := decide (page > 1)
  { page := page, limit := limit, total := total, total_pages := totalPages,
    has_next := hasNext, has_prev := hasPrev }

/-- Handler `ListSubscriptions`, from the four query strings (an absent
parameter is the empty string).  `Count` gives the number of rows the filters
select, `Offset(offset).Limit(limit).Find` the rows of the page; the store is
sent an offset only when it is positive. -/
def ListSubscriptions (libs : Libs) (db : DB)
    (pageQ limitQ userIDQ serviceNameQ : String) : Response :=
  let page := resolvePage pageQ
  let limit := resolveLimit limitQ
  let offset := pageOffset page limit
  let v := TrimSpace userIDQ
  if v ≠ "" ∧ libs.uuidParse v = none then ⟨400, .error "invalid user_id"⟩
  else
    let sv := TrimSpace serviceNameQ
    if db.healthy then
      let matching := db.rows.filter (listFilter v sv)
      let total : Int := matching.length
      let items := (matching.drop offset.toNat).take limit.toNat
      ⟨200, .list items (paginationOf page limit total)⟩
    else ⟨500, .error "db error"⟩

/-! ## `UpdateSubscription` -/

/-- The assignment `updates["service_name"] = v`. -/
def Updates.setServiceName (u : Updates) (v : String) : Updates :=
  { u with service_name := some v }

/-- The assignment of the key `price`. -/
def Updates.setPrice (u : Updates) (v : Int) : Updates :=
  { u with price := some v }

/-- The assignment of the key `user_id`. -/
def Updates.setUserID (u : Updates) (v : String) : Updates :=
  { u with user_id := some v }

/-- The assignment of the key `start_date`. -/
def Updates.setStartDate (u : Updates) (v : Time) : Updates :=
  { u with start_date := some v }

/-- The assignment of the key `end_date`. -/
def Updates.setEndDate (u : Updates) (v : Time) : Updates :=
  { u with end_date := some v }

/-- The end of the block that fills `updates` (lines 214 to 221): the key
`end_date`. -/
def stageEndDate (libs : Libs) (req : createSubscriptionRequest) (u4 : Updates) :
    Except Response Updates :=
  if TrimSpace req.EndDate ≠ "" then
    match libs.timeParse (TrimSpace req.EndDate) with
    | none => .error ⟨400, .error "invalid end_date"⟩
    | some t => .ok (u4.setEndDate t)
  else .ok u4

/-- Lines 206 to 221 of the block that fills `updates`: the key `start_date`,
then `end_date`. -/
def stageDates (libs : Libs) (req : createSubscriptionRequest) (u3 : Updates) :
    Except Response Updates :=
  if TrimSpace req.StartDate ≠ "" then
    match libs.timeParse (TrimSpace req.StartDate) with
    | none => .error ⟨400, .error "invalid start_date"⟩
    | some t => stageEndDate libs req (u3.setStartDate t)
  else stageEndDate libs req u3

/-- The block of `UpdateSubscription` that fills `updates` from the request
(lines 192 to 221), one key after the other: either the response of an early
return, or the staged map. -/
def stageUpdates (libs : Libs) (req : createSubscriptionRequest) : Except Response Updates :=
  let u0 := Updates.empty
  let u1 := if TrimSpace req.ServiceName ≠ "" then
      u0.setServiceName (TrimSpace req.ServiceName) else u0
  let u2 := if req.Price ≠ 0 then u1.setPrice req.Price else u1
  if TrimSpace req.UserID ≠ "" then
    match libs.uuidParse (TrimSpace req.UserID) with
    | none => .error ⟨400, .error "invalid user_id"⟩
    | some _ => stageDates libs req (u2.setUserID (TrimSpace req.UserID))
  else stageDates libs req u2

/-- Handler `UpdateSubscription`: the response and the store it leaves.  `body`
is `none` when `BodyParser` fails. -/
def UpdateSubscription (libs : Libs) (db : DB) (idParam : String)
    (body : Option createSubscriptionRequest) : Response × DB :=
  match libs.uuidParse idParam with
  | none => (⟨400, .error "invalid id"⟩, db)
  | some id =>
    match body with
    | none => (⟨400, .error "invalid request"⟩, db)
    | some req =>
      match stageUpdates libs req with
      | .error resp => (resp, db)
      | .ok updates =>
        if updates.len = 0 then (⟨204, .empty⟩, db)
        else
          match db.Updates id updates with
          | none => (⟨500, .error "db error"⟩, db)
          | some db1 =>
            match db1.First id with
            | none => (⟨500, .error "db error"⟩, db1)
            | some item => (⟨200, .subscription item⟩, db1)

/-- The request supplies no field: the four strings are empty once trimmed and
the price is `0`. -/
def noFieldSupplied (req : createSubscriptionRequest) : Prop :=
  TrimSpace req.ServiceName = "" ∧ TrimSpace req.UserID = "" ∧
    TrimSpace req.StartDate = "" ∧ TrimSpace req.EndDate = "" ∧ req.Price = 0

/-! ## `CreateSubscription` -/

/-- Handler `CreateSubscription`: what the handler yields and the store it
leaves.  `uuid.Must(uuid.Parse(req.UserID))` panics when the parse fails. -/
def CreateSubscription (libs : Libs) (db : DB)
    (body : Option createSubscriptionRequest) : HandlerResult × DB :=
  match body with
  | none => (.responded ⟨400, .error "invalid request"⟩, db)
  | some req =>
    let serviceName := TrimSpace req.ServiceName
    match libs.timeParse req.StartDate with
    | none => (.responded ⟨400, .error "invalid request"⟩, db)
    | some startDate =>
      if TrimSpace req.EndDate ≠ "" ∧ libs.timeParse req.EndDate = none then
        (.responded ⟨400, .error "invalid request"⟩, db)
      else
        let endDatePtr := if TrimSpace req.EndDate ≠ "" then libs.timeParse req.EndDate else none
        match libs.uuidParse req.UserID with
        | none => (.panicked, db)
        | some userID =>
          let subscription : Subscription :=
            { ID := libs.uuidNew, ServiceName := serviceName, Price := req.Price,
              UserID := userID, StartDate := startDate, EndDate := endDatePtr }
          match db.Create subscription with
          | none => (.responded ⟨500, .error "db error"⟩, db)
          | some db1 => (.responded ⟨201, .subscription subscription⟩, db1)

/-! ## `CountSubscriptionSum` -/

/-- Handler `CountSubscriptionSum`, from the path parameter `userid` and the
query strings `start`, `end` and `service_name`. -/
def CountSubscriptionSum (libs : Libs) (db : DB)
    (useridP startQ endQ serviceNameQ : String) : Response :=
  let userid := TrimSpace useridP
  if userid = "" then ⟨400, .error "userid is required"⟩
  else
    match libs.uuidParse userid with
    | none => ⟨400, .error "invalid userid"⟩
    | some _ =>
      let start := TrimSpace startQ
      let end_ := TrimSpace endQ
      let serviceName := TrimSpace serviceNameQ
      if start = "" ∨ end_ = "" then ⟨400, .error "start and end are required"⟩
      else
        match libs.timeParse start with
        | none => ⟨400, .error "invalid start"⟩
        | some periodStart =>
          match libs.timeParse end_ with
          | none => ⟨400, .error "invalid end"⟩
          | some periodEnd =>
            match db.FindCandidates userid serviceName periodStart periodEnd with
            | none => ⟨500, .error "db error"⟩
            | some items => ⟨200, .sum (sumLoop periodStart periodEnd items)⟩

/-! ## Sample library functions

Concrete stand-ins for the library functions, used to run the handlers on
concrete requests. -/

/-- Month with a given number, `none` outside `1..12`. -/
def Month.fromNumber (n : Nat) : Option Month :=
  match n with
  | 1 => some .January
  | 2 => some .February
  | 3 => some .March
  | 4 => some .April
  | 5 => some .May
  | 6 => some .June
  | 7 => some .July
  | 8 => some .August
  | 9 => some .September
  | 10 => some .October
  | 11 => some .November
  | 12 => some .December
  | _ => none

/-- The behaviour of `time.Parse` for the layout `01-2006`: two digits of a month
in `01..12`, a hyphen, four digits of a year, and nothing else; the result is
the first instant of that month. -/
def parseMonthYear (s : String) : Option Time :=
  match s.data with
  | [m1, m2, '-', y1, y2, y3, y4] =>
    match parseDigits [m1, m2] 0, parseDigits [y1, y2, y3, y4] 0 with
    | some m, some y =>
      match Month.fromNumber m with
      | some mo => some (monthStart (y : Int) mo)
      | none => none
    | _, _ => none
  | _ => none

/-- Hexadecimal digit. -/
def isHexDigit (c : Char) : Bool :=
  let n := c.toNat
  (48 ≤ n && n ≤ 57) || (97 ≤ n && n ≤ 102) || (65 ≤ n && n ≤ 70)

/-- Is the character at position `i` what the form
`xxxxxxxx-xxxx-xxxx-xxxx-xxxxxxxxxxxx` asks for. -/
def uuidCharOk (i : Nat) (c : Char) : Bool :=
  if i = 8 ∨ i = 13 ∨ i = 18 ∨ i = 23 then c == '-' else isHexDigit c

/-- Does a list of characters, read from position `i` on, follow that form. -/
def uuidCharsOk : Nat → List Char → Bool
  | _, [] => true
  | i, c :: cs => uuidCharOk i c && uuidCharsOk (i + 1) cs

/-- The 36-character form of an identifier, the one `uuid.Parse` accepts besides
its bracketed, URN and 32-digit variants: the text itself when it is
well-formed. -/
def canonicalUUID (s : String) : Option String :=
  if s.data.length = 36 ∧ uuidCharsOk 0 s.data = true then some s else none

/-- Library functions used to run the handlers on concrete requests. -/
def sampleLibs : Libs :=
  { uuidParse := canonicalUUID
    uuidNew := "7d9f1c2e-5b3a-4e6f-8a1b-2c3d4e5f6a7b"
    timeParse := parseMonthYear }

/-- A subscription of the sample user with the given price and active interval. -/
def sampleSubscription (price : Int) (start : Time) (endDate : Option Time) : Subscription :=
  { ID := "3f2b8c1a-9d4e-4f6a-b7c8-1e2d3c4b5a69", ServiceName := "music", Price := price,
    UserID := "7d9f1c2e-5b3a-4e6f-8a1b-2c3d4e5f6a7b", StartDate := start, EndDate := endDate }

/-- An open-ended subscription of the sample user from Jan-2024 whose price is
the largest `int`. -/
def largestPriceSubscription : Subscription :=
  sampleSubscription 9223372036854775807 (monthStart 2024 .January) none

/-- A store that answers and holds the given rows. -/
def sampleDB (rows : List Subscription) : DB := { rows := rows, healthy := true }

/-! ## Predicates of the claims on the sum -/

/-- The subscription spans the whole window: it starts no later than
`periodStart` and has no end date or one that is not before `periodEnd`. -/
def spansWindow (periodStart periodEnd : Time) (s : Subscription) : Prop :=
  ¬ periodStart.Before s.StartDate ∧
    match s.EndDate with
    | none => True
    | some e => ¬ e.Before periodEnd

instance spansWindow.dec (periodStart periodEnd : Time) (s : Subscription) :
    Decidable (spansWindow periodStart periodEnd s) := by
  unfold spansWindow
  cases s.EndDate <;> infer_instance

/-- The subscription lies entirely before the window (it has an end date, which
is before `periodStart`) or entirely after it (it starts after `periodEnd`). -/
def outsideWindow (periodStart periodEnd : Time) (s : Subscription) : Prop :=
  (∃ e, s.EndDate = some e ∧ e.Before periodStart) ∨ periodEnd.Before s.StartDate

/-- The data is well formed: the end date, when present, is not before the
start date. -/
def wellFormed (s : Subscription) : Prop :=
  match s.EndDate with
  | none => True
  | some e => ¬ e.Before s.StartDate

instance wellFormed.dec (s : Subscription) : Decidable (wellFormed s) := by
  unfold wellFormed
  cases s.EndDate <;> infer_instance

/-! ## Months on an axis, for the statement on adjacent windows -/

instance Time.decMonthNormalized (t : Time) : Decidable t.monthNormalized := by
  unfold Time.monthNormalized
  infer_instance

/-- The month after a month of the year, January after December. -/
def Month.next : Month → Month
  | .January => .February
  | .February => .March
  | .March => .April
  | .April => .May
  | .May => .June
  | .June => .July
  | .July => .August
  | .August => .September
  | .September => .October
  | .October => .November
  | .November => .December
  | .December => .January

/-- The calendar month following the month of `t`: the first instant of the next
month, in the next year after December. -/
def nextMonth (t : Time) : Time :=
  monthStart (if t.month = .December then t.year + 1 else t.year) t.month.next

/-- Number of the month of `t` on the axis of months: twelve a year. -/
def monthIndex (t : Time) : Int := t.year * 12 + t.month.toInt

/-- The dates of a subscription are month-normalized. -/
def datesNormalized (s : Subscription) : Prop :=
  s.StartDate.monthNormalized ∧
    match s.EndDate with
    | none => True
    | some e => e.monthNormalized

instance datesNormalized.dec (s : Subscription) : Decidable (datesNormalized s) := by
  unfold datesNormalized
  cases s.EndDate <;> infer_instance

/-! ## Basic facts on instants -/

theorem wrapInt_of_range {x : Int} (h1 : minInt ≤ x) (h2 : x ≤ maxInt) : wrapInt x = x := by
  unfold wrapInt
  unfold minInt maxInt at *
  simp only [intSize] at *
  norm_num at *
  omega

theorem Month.toInt_pos (m : Month) : 1 ≤ m.toInt := by
  cases m <;> simp [Month.toInt]

theorem Month.toInt_le (m : Month) : m.toInt ≤ 12 := by
  cases m <;> simp [Month.toInt]

theorem Month.toInt_injective {m n : Month} (h : m.toInt = n.toInt) : m = n := by
  cases m <;> cases n <;> first | rfl | (simp [Month.toInt] at h)

theorem Time.eq_of_not_before {a b : Time} (h1 : ¬ a.Before b) (h2 : ¬ b.Before a) :
    a = b := by
  obtain ⟨ay, am, ad, an⟩ := a
  obtain ⟨by_, bm, bd, bn⟩ := b
  simp only [Time.Before] at h1 h2
  have hy : ay = by_ := by omega
  have hm : am.toInt = bm.toInt := by omega
  have hd : ad = bd := by omega
  have hn : an = bn := by omega
  have hm2 := Month.toInt_injective hm
  subst hy hm2 hd hn
  rfl

theorem Time.not_before_self (a : Time) : ¬ a.Before a := by
  simp only [Time.Before]
  omega

theorem Time.before_asymm {a b : Time} (h : a.Before b) : ¬ b.Before a := by
  simp only [Time.Before] at h ⊢
  omega

theorem Time.before_trans {a b c : Time} (h1 : a.Before b) (h2 : b.Before c) :
    a.Before c := by
  simp only [Time.Before] at h1 h2 ⊢
  omega

theorem Time.before_of_before_of_not_before {a b c : Time} (h1 : a.Before b)
    (h2 : ¬ c.Before b) : a.Before c := by
  simp only [Time.Before] at h1 h2 ⊢
  omega

theorem Time.before_of_not_before_of_before {a b c : Time} (h1 : ¬ b.Before a)
    (h2 : b.Before c) : a.Before c := by
  simp only [Time.Before] at h1 h2 ⊢
  omega

theorem Time.not_before_trans {a b c : Time} (h1 : ¬ b.Before a) (h2 : ¬ c.Before b) :
    ¬ c.Before a := by
  simp only [Time.Before] at h1 h2 ⊢
  omega

/-- When `a` is not after `b`, `(year, month)` of `a` does not exceed that of `b`. -/
theorem diffMonthsInclusive_pos {a b : Time} (h : ¬ a.After b) :
    1 ≤ diffMonthsInclusive a b := by
  have ha1 := Month.toInt_pos a.month
  have ha2 := Month.toInt_le a.month
  have hb1 := Month.toInt_pos b.month
  have hb2 := Month.toInt_le b.month
  simp only [Time.After, Time.Before] at h
  simp only [diffMonthsInclusive]
  omega

theorem maxTime_eq_specMax (a b : Time) : maxTime a b = specMax a b := by
  unfold maxTime specMax Time.After
  by_cases h1 : b.Before a
  · have h2 := Time.before_asymm h1
    simp [h1, h2]
  · by_cases h2 : a.Before b
    · simp [h1, h2]
    · simp [h1, h2, Time.eq_of_not_before h2 h1]

theorem loopEnd_eq_specEffectiveEnd (pe : Time) (s : Subscription) :
    loopEnd pe s = specEffectiveEnd pe s := by
  unfold loopEnd specEffectiveEnd specMin
  cases s.EndDate <;> rfl

theorem sumStepExact_eq (ps pe : Time) (sum : Int) (s : Subscription) :
    sumStepExact ps pe sum s = sum + contributionExact ps pe s := by
  unfold contributionExact sumStepExact
  by_cases h : skipped ps pe s <;> simp [h]

theorem foldl_sumStepExact (ps pe : Time) (items : List Subscription) (acc : Int) :
    items.foldl (sumStepExact ps pe) acc = acc + sumLoopExact ps pe items := by
  unfold sumLoopExact
  induction items generalizing acc with
  | nil => simp
  | cons s rest ih =>
    simp only [List.foldl_cons]
    rw [ih (sumStepExact ps pe acc s), ih (sumStepExact ps pe 0 s), sumStepExact_eq ps pe acc s,
      sumStepExact_eq ps pe 0 s]
    omega

theorem sumLoopExact_nil (ps pe : Time) : sumLoopExact ps pe [] = 0 := rfl

theorem sumLoopExact_cons (ps pe : Time) (s : Subscription) (rest : List Subscription) :
    sumLoopExact ps pe (s :: rest) = contributionExact ps pe s + sumLoopExact ps pe rest := by
  have h := foldl_sumStepExact ps pe rest (sumStepExact ps pe 0 s)
  unfold sumLoopExact at h ⊢
  simp only [List.foldl_cons]
  rw [h]
  rfl

theorem contributionExact_eq_spec (ps pe : Time) (s : Subscription) :
    contributionExact ps pe s = specContribution ps pe s := by
  unfold contributionExact sumStepExact specContribution skipped loopMonths loopStart
    specEffectiveStart diffMonthsInclusive Time.After
  simp only [maxTime_eq_specMax, loopEnd_eq_specEffectiveEnd]
  by_cases h : (specEffectiveEnd pe s).Before (specMax s.StartDate ps) <;> simp [h]


/-! ## The overlap guard -/

theorem skipped_of_none {ps pe : Time} {s : Subscription} (hE : s.EndDate = none) :
    skipped ps pe s ↔ (pe.Before s.StartDate ∨ pe.Before ps) := by
  unfold skipped loopStart loopEnd maxTime Time.After
  rw [hE]
  by_cases h1 : ps.Before s.StartDate
  · simp only [h1, if_true]
    constructor
    · intro h
      exact Or.inl h
    · rintro (h | h)
      · exact h
      · exact Time.before_trans h h1
  · simp only [h1, if_false]
    constructor
    · intro h
      exact Or.inr h
    · rintro (h | h)
      · exact Time.before_of_before_of_not_before h h1
      · exact h

theorem loopEnd_of_some {pe e : Time} {s : Subscription} (hE : s.EndDate = some e) :
    loopEnd pe s = if e.Before pe then e else pe := by
  unfold loopEnd
  rw [hE]

theorem skipped_of_some {ps pe e : Time} {s : Subscription} (hE : s.EndDate = some e) :
    skipped ps pe s ↔
      (pe.Before s.StartDate ∨ pe.Before ps ∨ e.Before s.StartDate ∨ e.Before ps) := by
  unfold skipped loopStart maxTime Time.After
  rw [loopEnd_of_some hE]
  by_cases h1 : ps.Before s.StartDate <;> by_cases h2 : e.Before pe <;>
    simp only [h1, h2, if_true, if_false] <;>
    simp only [Time.Before] at h1 h2 ⊢ <;> omega

theorem contributionExact_of_skipped {ps pe : Time} {s : Subscription}
    (h : skipped ps pe s) : contributionExact ps pe s = 0 := by
  unfold contributionExact sumStepExact
  simp [h]

theorem contributionExact_of_not_skipped {ps pe : Time} {s : Subscription}
    (h : ¬ skipped ps pe s) : contributionExact ps pe s = s.Price * loopMonths ps pe s := by
  unfold contributionExact sumStepExact
  simp [h]

theorem skipped_of_not_candidate {ps pe : Time} {s : Subscription}
    (h : ¬ candidate ps pe s) : skipped ps pe s := by
  unfold candidate at h
  cases hE : s.EndDate with
  | none =>
    rw [hE] at h
    simp only [and_true, not_not] at h
    exact (skipped_of_none hE).mpr (Or.inl h)
  | some e =>
    rw [hE] at h
    simp only at h
    rw [skipped_of_some hE]
    by_cases h1 : pe.Before s.StartDate
    · exact Or.inl h1
    · by_cases h2 : e.Before ps
      · exact Or.inr (Or.inr (Or.inr h2))
      · exact absurd ⟨h1, h2⟩ h

theorem sumLoopExact_filter_candidate (ps pe : Time) (items : List Subscription) :
    sumLoopExact ps pe (items.filter (fun s => decide (candidate ps pe s))) = sumLoopExact ps pe items := by
  induction items with
  | nil => rfl
  | cons s rest ih =>
    by_cases h : candidate ps pe s
    · rw [List.filter_cons_of_pos (by simpa using h), sumLoopExact_cons, sumLoopExact_cons, ih]
    · rw [List.filter_cons_of_neg (by simpa using h), sumLoopExact_cons, ih,
        contributionExact_of_skipped (skipped_of_not_candidate h)]
      simp

theorem filter_owned_candidate (userid sv : String) (ps pe : Time) (rows : List Subscription) :
    rows.filter (fun s => ownedBy userid sv s && decide (candidate ps pe s)) =
      (rows.filter (ownedBy userid sv)).filter (fun s => decide (candidate ps pe s)) := by
  rw [List.filter_filter]
  congr 1
  funext s
  exact Bool.and_comm _ _

theorem sumLoopExact_eq_zero_of_all_skipped (ps pe : Time) (items : List Subscription)
    (h : ∀ s ∈ items, skipped ps pe s) : sumLoopExact ps pe items = 0 := by
  induction items with
  | nil => rfl
  | cons s rest ih =>
    rw [sumLoopExact_cons, contributionExact_of_skipped (h s (List.mem_cons_self s rest)),
      ih (fun t ht => h t (List.mem_cons_of_mem s ht))]
    rfl

theorem skipped_of_reversed {ps pe : Time} (h : pe.Before ps) (s : Subscription) :
    skipped ps pe s := by
  cases hE : s.EndDate with
  | none => exact (skipped_of_none hE).mpr (Or.inr h)
  | some e => exact (skipped_of_some hE).mpr (Or.inr (Or.inl h))

theorem loopMonths_pos {ps pe : Time} {s : Subscription} (h : ¬ skipped ps pe s) :
    1 ≤ loopMonths ps pe s :=
  diffMonthsInclusive_pos h

theorem sumLoopExact_nonneg (ps pe : Time) (items : List Subscription)
    (h : ∀ s ∈ items, 0 ≤ s.Price) : 0 ≤ sumLoopExact ps pe items := by
  induction items with
  | nil => simp [sumLoopExact_nil]
  | cons s rest ih =>
    rw [sumLoopExact_cons]
    have hrest := ih (fun t ht => h t (List.mem_cons_of_mem s ht))
    have hp := h s (List.mem_cons_self s rest)
    by_cases hs : skipped ps pe s
    · rw [contributionExact_of_skipped hs]
      omega
    · rw [contributionExact_of_not_skipped hs]
      have hm := loopMonths_pos hs
      have := mul_nonneg hp (by omega : (0 : Int) ≤ loopMonths ps pe s)
      omega

theorem loopStart_of_spans {ps pe : Time} {s : Subscription} (h : spansWindow ps pe s) :
    loopStart ps s = ps := by
  unfold loopStart maxTime Time.After
  simp [h.1]

theorem loopEnd_of_spans {ps pe : Time} {s : Subscription} (h : spansWindow ps pe s) :
    loopEnd pe s = pe := by
  have h2 := h.2
  unfold loopEnd
  cases hE : s.EndDate with
  | none => rfl
  | some e =>
    rw [hE] at h2
    simp only at h2
    simp [h2]

theorem contributionExact_of_spans {ps pe : Time} {s : Subscription} (hw : ¬ pe.Before ps)
    (h : spansWindow ps pe s) :
    ¬ skipped ps pe s ∧ contributionExact ps pe s = s.Price * diffMonthsInclusive ps pe := by
  have hk : ¬ skipped ps pe s := by
    unfold skipped Time.After
    rw [loopStart_of_spans h, loopEnd_of_spans h]
    exact hw
  refine ⟨hk, ?_⟩
  rw [contributionExact_of_not_skipped hk]
  unfold loopMonths
  rw [loopStart_of_spans h, loopEnd_of_spans h]

theorem not_skipped_of_candidate {ps pe : Time} {s : Subscription} (hw : ¬ pe.Before ps)
    (hwf : wellFormed s) (hc : candidate ps pe s) : ¬ skipped ps pe s := by
  unfold candidate at hc
  unfold wellFormed at hwf
  cases hE : s.EndDate with
  | none =>
    rw [skipped_of_none hE]
    rintro (h | h)
    · exact hc.1 h
    · exact hw h
  | some e =>
    rw [hE] at hc hwf
    simp only at hc hwf
    rw [skipped_of_some hE]
    rintro (h | h | h | h)
    · exact hc.1 h
    · exact hw h
    · exact hwf h
    · exact hc.2 h

/-! ## The loop in `int` and the loop in exact integers -/

theorem wrapInt_wrapInt (x : Int) : wrapInt (wrapInt x) = wrapInt x := by
  unfold wrapInt
  simp only [intSize]
  norm_num

theorem wrapInt_add_wrapInt (x y : Int) :
    wrapInt (wrapInt x + wrapInt y) = wrapInt (x + y) := by
  unfold wrapInt
  simp only [intSize]
  norm_num
  omega

theorem wrapInt_zero : wrapInt 0 = 0 := by decide

theorem foldl_sumStep_wrap (ps pe : Time) (items : List Subscription) (acc : Int) :
    items.foldl (sumStep ps pe) (wrapInt acc) =
      wrapInt (items.foldl (sumStepExact ps pe) acc) := by
  induction items generalizing acc with
  | nil => rfl
  | cons s rest ih =>
    simp only [List.foldl_cons]
    have hstep : sumStep ps pe (wrapInt acc) s = wrapInt (sumStepExact ps pe acc s) := by
      unfold sumStep sumStepExact
      by_cases h : skipped ps pe s
      · simp only [h, if_true]
      · simp only [h, if_false]
        exact wrapInt_add_wrapInt acc (s.Price * loopMonths ps pe s)
    rw [hstep, ih]

theorem sumLoop_eq_wrapInt_exact (ps pe : Time) (items : List Subscription) :
    sumLoop ps pe items = wrapInt (sumLoopExact ps pe items) := by
  have h := foldl_sumStep_wrap ps pe items 0
  rw [wrapInt_zero] at h
  exact h

theorem sumLoop_eq_exact_of_range {ps pe : Time} {items : List Subscription}
    (h1 : minInt ≤ sumLoopExact ps pe items) (h2 : sumLoopExact ps pe items ≤ maxInt) :
    sumLoop ps pe items = sumLoopExact ps pe items := by
  rw [sumLoop_eq_wrapInt_exact, wrapInt_of_range h1 h2]

theorem contributionOf_eq_wrapInt_exact (ps pe : Time) (s : Subscription) :
    contributionOf ps pe s = wrapInt (contributionExact ps pe s) := by
  have h := foldl_sumStep_wrap ps pe [s] 0
  rw [wrapInt_zero] at h
  exact h

theorem contributionOf_of_skipped {ps pe : Time} {s : Subscription}
    (h : skipped ps pe s) : contributionOf ps pe s = 0 := by
  unfold contributionOf sumStep
  simp [h]

theorem contributionOf_of_not_skipped {ps pe : Time} {s : Subscription}
    (h : ¬ skipped ps pe s) :
    contributionOf ps pe s = wrapInt (s.Price * loopMonths ps pe s) := by
  rw [contributionOf_eq_wrapInt_exact, contributionExact_of_not_skipped h]

theorem sumLoop_filter_candidate (ps pe : Time) (items : List Subscription) :
    sumLoop ps pe (items.filter (fun s => decide (candidate ps pe s))) = sumLoop ps pe items := by
  rw [sumLoop_eq_wrapInt_exact, sumLoop_eq_wrapInt_exact, sumLoopExact_filter_candidate]

theorem sumLoop_eq_zero_of_all_skipped (ps pe : Time) (items : List Subscription)
    (h : ∀ s ∈ items, skipped ps pe s) : sumLoop ps pe items = 0 := by
  rw [sumLoop_eq_wrapInt_exact, sumLoopExact_eq_zero_of_all_skipped ps pe items h]
  exact wrapInt_zero

theorem contributionOf_of_spans {ps pe : Time} {s : Subscription} (hw : ¬ pe.Before ps)
    (h : spansWindow ps pe s) :
    ¬ skipped ps pe s ∧
      contributionOf ps pe s = wrapInt (s.Price * diffMonthsInclusive ps pe) := by
  have h1 := contributionExact_of_spans hw h
  refine ⟨h1.1, ?_⟩
  rw [contributionOf_eq_wrapInt_exact, h1.2]

theorem sumLoopExact_eq_specSum (ps pe : Time) (items : List Subscription) :
    sumLoopExact ps pe items = specSum ps pe items := by
  induction items with
  | nil => rfl
  | cons s rest ih =>
    rw [sumLoopExact_cons, ih, contributionExact_eq_spec]
    simp [specSum]

theorem CountSubscriptionSum_of_valid {libs : Libs} {db : DB}
    {useridP startQ endQ serviceNameQ u : String} {ps pe : Time}
    (hid : TrimSpace useridP ≠ "") (hu : libs.uuidParse (TrimSpace useridP) = some u)
    (hs : TrimSpace startQ ≠ "") (he : TrimSpace endQ ≠ "")
    (hps : libs.timeParse (TrimSpace startQ) = some ps)
    (hpe : libs.timeParse (TrimSpace endQ) = some pe) :
    CountSubscriptionSum libs db useridP startQ endQ serviceNameQ =
      match db.FindCandidates (TrimSpace useridP) (TrimSpace serviceNameQ) ps pe with
      | none => ⟨500, .error "db error"⟩
      | some items => ⟨200, .sum (sumLoop ps pe items)⟩ := by
  unfold CountSubscriptionSum
  simp only [hid, hu, hs, he, hps, hpe, if_false, or_self]

/-! ## Claims on the windowed sum -/

/-- C1, as the source has it.  The value the sum loop of `CountSubscriptionSum`
returns is the sum, over the list, of the contribution the specification defines
(effective start = max of start date and period start, effective end = min of
period end and end date, an absent end date being plus infinity, `0` when the
effective start is after the effective end, else
`price * ((year difference) * 12 + (month difference) + 1)`), reduced to the
64-bit `int` in which the loop multiplies and adds; it is that sum itself
whenever the sum lies in the range of `int`.  This holds for every list and every
window, and the handler answers status 200 with that value.  The three examples
of the specification evaluate to `400`, to `100`, and to exactly one month. -/
theorem sumLoop_eq_specSum :
    (∀ (ps pe : Time) (items : List Subscription),
      sumLoop ps pe items = wrapInt (specSum ps pe items)) ∧
    (∀ (ps pe : Time) (items : List Subscription),
      minInt ≤ specSum ps pe items → specSum ps pe items ≤ maxInt →
        sumLoop ps pe items = specSum ps pe items) ∧
    (∀ (libs : Libs) (db : DB) (useridP startQ endQ serviceNameQ u : String) (ps pe : Time)
      (items : List Subscription),
      TrimSpace useridP ≠ "" → libs.uuidParse (TrimSpace useridP) = some u →
      TrimSpace startQ ≠ "" → TrimSpace endQ ≠ "" →
      libs.timeParse (TrimSpace startQ) = some ps →
      libs.timeParse (TrimSpace endQ) = some pe →
      db.FindCandidates (TrimSpace useridP) (TrimSpace serviceNameQ) ps pe = some items →
        CountSubscriptionSum libs db useridP startQ endQ serviceNameQ =
          ⟨200, .sum (wrapInt (specSum ps pe items))⟩) ∧
    sumLoop (monthStart 2024 .March) (monthStart 2024 .December)
      [sampleSubscription 100 (monthStart 2024 .January) (some (monthStart 2024 .June))]
        = 400 ∧
    sumLoop (monthStart 2023 .November) (monthStart 2024 .February)
      [sampleSubscription 50 (monthStart 2024 .January) none] = 100 ∧
    (¬ skipped (monthStart 2024 .January) (monthStart 2024 .March)
        (sampleSubscription 70 (monthStart 2024 .March) none) ∧
      loopMonths (monthStart 2024 .January) (monthStart 2024 .March)
        (sampleSubscription 70 (monthStart 2024 .March) none) = 1 ∧
      sumLoop (monthStart 2024 .January) (monthStart 2024 .March)
        [sampleSubscription 70 (monthStart 2024 .March) none] = 70) := by
  have hgen : ∀ (ps pe : Time) (items : List Subscription),
      sumLoop ps pe items = wrapInt (specSum ps pe items) := by
    intro ps pe items
    rw [sumLoop_eq_wrapInt_exact, sumLoopExact_eq_specSum]
  refine ⟨hgen, ?_, ?_, by decide, by decide, by decide, by decide, by decide⟩
  · intro ps pe items h1 h2
    rw [hgen, wrapInt_of_range h1 h2]
  · intro libs db useridP startQ endQ serviceNameQ u ps pe items hid hu hs he hps hpe hf
    rw [CountSubscriptionSum_of_valid hid hu hs he hps hpe, hf]
    simp only
    rw [hgen]

/-- Instance of C1: for a subscription Jan-2024..Jun-2024 at price 100 and the
window Mar-2024..Dec-2024 the sum of the contributions, 400, lies in the range of
`int`, the loop returns it, and the request `start=03-2024&end=12-2024` is
answered with status 200 and that sum. -/
theorem sumLoop_eq_specSum_witness :
    specSum (monthStart 2024 .March) (monthStart 2024 .December)
      [sampleSubscription 100 (monthStart 2024 .January) (some (monthStart 2024 .June))]
        = 400 ∧
    sumLoop (monthStart 2024 .March) (monthStart 2024 .December)
      [sampleSubscription 100 (monthStart 2024 .January) (some (monthStart 2024 .June))] =
      specSum (monthStart 2024 .March) (monthStart 2024 .December)
        [sampleSubscription 100 (monthStart 2024 .January) (some (monthStart 2024 .June))] ∧
    CountSubscriptionSum sampleLibs
      (sampleDB [sampleSubscription 100 (monthStart 2024 .January)
        (some (monthStart 2024 .June))])
      "7d9f1c2e-5b3a-4e6f-8a1b-2c3d4e5f6a7b" "03-2024" "12-2024" "" =
      ⟨200, .sum (wrapInt (specSum (monthStart 2024 .March) (monthStart 2024 .December)
        [sampleSubscription 100 (monthStart 2024 .January)
          (some (monthStart 2024 .June))]))⟩ :=
  ⟨by decide,
    sumLoop_eq_specSum.2.1 (monthStart 2024 .March) (monthStart 2024 .December)
      [sampleSubscription 100 (monthStart 2024 .January) (some (monthStart 2024 .June))]
      (by decide) (by decide),
    sumLoop_eq_specSum.2.2.1 sampleLibs
      (sampleDB [sampleSubscription 100 (monthStart 2024 .January)
        (some (monthStart 2024 .June))])
      "7d9f1c2e-5b3a-4e6f-8a1b-2c3d4e5f6a7b" "03-2024" "12-2024" ""
      "7d9f1c2e-5b3a-4e6f-8a1b-2c3d4e5f6a7b" (monthStart 2024 .March)
      (monthStart 2024 .December)
      [sampleSubscription 100 (monthStart 2024 .January) (some (monthStart 2024 .June))]
      (by decide) (by decide) (by decide) (by decide) (by decide) (by decide) (by decide)⟩

/-- C1 as stated fails: for the month-normalized candidate row of price
`9223372036854775807`, open-ended from Jan-2024, and the window
Jan-2024..Feb-2024, the sum of the contributions is `18446744073709551614` while
the `int` product of the loop wraps around: the loop returns `-2`, and so does
the handler for the request `start=01-2024&end=02-2024`. -/
theorem sum_wraps_for_largest_price :
    datesNormalized largestPriceSubscription ∧
    candidate (monthStart 2024 .January) (monthStart 2024 .February)
      largestPriceSubscription ∧
    ¬ (monthStart 2024 .February).Before (monthStart 2024 .January) ∧
    specSum (monthStart 2024 .January) (monthStart 2024 .February)
      [largestPriceSubscription] = 18446744073709551614 ∧
    sumLoop (monthStart 2024 .January) (monthStart 2024 .February)
      [largestPriceSubscription] = -2 ∧
    sumLoop (monthStart 2024 .January) (monthStart 2024 .February)
      [largestPriceSubscription] ≠
      specSum (monthStart 2024 .January) (monthStart 2024 .February)
        [largestPriceSubscription] ∧
    CountSubscriptionSum sampleLibs (sampleDB [largestPriceSubscription])
      "7d9f1c2e-5b3a-4e6f-8a1b-2c3d4e5f6a7b" "01-2024" "02-2024" "" = ⟨200, .sum (-2)⟩ := by
  refine ⟨by decide, by decide, by decide, by decide, by decide, by decide, by decide⟩

/-- C2. A subscription entirely before the window (end date present and before
the period start) or entirely after it (start date after the period end) is
skipped by the loop and contributes `0`, for every window.  Hence a subscription
that fails the store-side condition `start_date <= periodEnd AND (end_date IS NULL
OR end_date >= periodStart)` contributes `0`, and the sum over the rows the query
of `CountSubscriptionSum` returns equals the sum over all the rows of the user.
The subscription Jan-2024..Mar-2024 contributes `0` to the window
Jun-2024..Dec-2024. -/
theorem outside_window_contributes_zero :
    (∀ (ps pe : Time) (s : Subscription), outsideWindow ps pe s →
      skipped ps pe s ∧ contributionOf ps pe s = 0) ∧
    (∀ (ps pe : Time) (s : Subscription), ¬ candidate ps pe s →
      skipped ps pe s ∧ contributionOf ps pe s = 0) ∧
    (∀ (db : DB) (userid sv : String) (ps pe : Time) (items : List Subscription),
      db.FindCandidates userid sv ps pe = some items →
        sumLoop ps pe items = sumLoop ps pe (db.rows.filter (ownedBy userid sv))) ∧
    (skipped (monthStart 2024 .June) (monthStart 2024 .December)
        (sampleSubscription 100 (monthStart 2024 .January) (some (monthStart 2024 .March))) ∧
      contributionOf (monthStart 2024 .June) (monthStart 2024 .December)
        (sampleSubscription 100 (monthStart 2024 .January) (some (monthStart 2024 .March)))
          = 0) := by
  refine ⟨?_, ?_, ?_, by decide, by decide⟩
  · intro ps pe s h
    have hk : skipped ps pe s := by
      rcases h with ⟨e, hE, hb⟩ | h
      · exact (skipped_of_some hE).mpr (Or.inr (Or.inr (Or.inr hb)))
      · cases hE : s.EndDate with
        | none => exact (skipped_of_none hE).mpr (Or.inl h)
        | some e => exact (skipped_of_some hE).mpr (Or.inl h)
    exact ⟨hk, contributionOf_of_skipped hk⟩
  · intro ps pe s h
    exact ⟨skipped_of_not_candidate h, contributionOf_of_skipped (skipped_of_not_candidate h)⟩
  · intro db userid sv ps pe items h
    unfold DB.FindCandidates at h
    by_cases hh : db.healthy = true
    · simp only [hh, if_true, Option.some.injEq] at h
      rw [← h, filter_owned_candidate, sumLoop_filter_candidate]
    · simp [hh] at h

/-- Instance of C2 at the subscription Jan-2024..Mar-2024 and the window
Jun-2024..Dec-2024, which it lies entirely before. -/
theorem outside_window_contributes_zero_witness :
    outsideWindow (monthStart 2024 .June) (monthStart 2024 .December)
      (sampleSubscription 100 (monthStart 2024 .January) (some (monthStart 2024 .March))) ∧
    contributionOf (monthStart 2024 .June) (monthStart 2024 .December)
      (sampleSubscription 100 (monthStart 2024 .January) (some (monthStart 2024 .March))) = 0 :=
  have h : outsideWindow (monthStart 2024 .June) (monthStart 2024 .December)
      (sampleSubscription 100 (monthStart 2024 .January) (some (monthStart 2024 .March))) :=
    Or.inl ⟨monthStart 2024 .March, rfl, by decide⟩
  ⟨h, (outside_window_contributes_zero.1 _ _ _ h).2⟩

/-- C3, as the source has it.  For a window with `periodStart <= periodEnd`, a
subscription that spans the whole window (start date not after the period start,
end date absent or not before the period end) is not skipped and is counted for
the inclusive month count of the window,
`(periodEnd.year - periodStart.year) * 12 + (periodEnd.month - periodStart.month) + 1`,
which is at least one.  Its contribution is the product of its price and that
count computed in the 64-bit `int`: the exact product whenever the product lies
in the range of `int`.  Two such subscriptions of equal price contribute the same
amount, whatever their own start and end dates. -/
theorem spanning_contribution (ps pe : Time) (s : Subscription)
    (hw : ¬ pe.Before ps) (h : spansWindow ps pe s) :
    ¬ skipped ps pe s ∧
    loopMonths ps pe s = diffMonthsInclusive ps pe ∧
    contributionOf ps pe s =
      wrapInt (s.Price *
        ((pe.year - ps.year) * 12 + (pe.month.toInt - ps.month.toInt) + 1)) ∧
    (minInt ≤ s.Price * ((pe.year - ps.year) * 12 + (pe.month.toInt - ps.month.toInt) + 1) →
      s.Price * ((pe.year - ps.year) * 12 + (pe.month.toInt - ps.month.toInt) + 1) ≤ maxInt →
        contributionOf ps pe s =
          s.Price * ((pe.year - ps.year) * 12 + (pe.month.toInt - ps.month.toInt) + 1)) ∧
    1 ≤ diffMonthsInclusive ps pe ∧
    (∀ t : Subscription, spansWindow ps pe t → t.Price = s.Price →
      contributionOf ps pe t = contributionOf ps pe s) := by
  have h1 := contributionOf_of_spans hw h
  refine ⟨h1.1, ?_, h1.2, ?_, diffMonthsInclusive_pos hw, ?_⟩
  · unfold loopMonths
    rw [loopStart_of_spans h, loopEnd_of_spans h]
  · intro hlo hhi
    rw [h1.2]
    exact wrapInt_of_range hlo hhi
  · intro t ht hp
    rw [(contributionOf_of_spans hw ht).2, h1.2, hp]

/-- Instance of C3: an open-ended subscription from Jan-2020 at price 30 over the
window Mar-2024..Dec-2024 contributes ten months. -/
theorem spanning_contribution_witness :
    ¬ (monthStart 2024 .December).Before (monthStart 2024 .March) ∧
    spansWindow (monthStart 2024 .March) (monthStart 2024 .December)
      (sampleSubscription 30 (monthStart 2020 .January) none) ∧
    contributionOf (monthStart 2024 .March) (monthStart 2024 .December)
      (sampleSubscription 30 (monthStart 2020 .January) none) = 30 * 10 :=
  ⟨by decide, by decide,
    (spanning_contribution (monthStart 2024 .March) (monthStart 2024 .December)
      (sampleSubscription 30 (monthStart 2020 .January) none) (by decide) (by decide)).2.2.2.1
      (by decide) (by decide)⟩

/-- C3 as stated fails: the open-ended subscription from Jan-2024 of price
`9223372036854775807` spans the window Jan-2024..Feb-2024, whose inclusive month
count is two, and the loop's `int` product wraps around: its contribution is `-2`,
not the price times two. -/
theorem spanning_contribution_wraps_for_largest_price :
    ¬ (monthStart 2024 .February).Before (monthStart 2024 .January) ∧
    spansWindow (monthStart 2024 .January) (monthStart 2024 .February)
      largestPriceSubscription ∧
    diffMonthsInclusive (monthStart 2024 .January) (monthStart 2024 .February) = 2 ∧
    contributionOf (monthStart 2024 .January) (monthStart 2024 .February)
      largestPriceSubscription = -2 ∧
    contributionOf (monthStart 2024 .January) (monthStart 2024 .February)
      largestPriceSubscription ≠
      largestPriceSubscription.Price *
        diffMonthsInclusive (monthStart 2024 .January) (monthStart 2024 .February) := by
  refine ⟨by decide, by decide, by decide, by decide, by decide⟩

/-- C8. When the parsed window is reversed (`periodStart` after `periodEnd`),
`CountSubscriptionSum` reports no validation error: the overlap guard skips every
subscription, whatever its start date and its present or absent end date, the
loop returns `0` for every list, and the handler answers status 200 with sum `0`
(status 500 when the store fails, never 400). -/
theorem reversed_window_sum_zero (libs : Libs) (db : DB)
    (useridP startQ endQ serviceNameQ u : String) (ps pe : Time)
    (hid : TrimSpace useridP ≠ "") (hu : libs.uuidParse (TrimSpace useridP) = some u)
    (hs : TrimSpace startQ ≠ "") (he : TrimSpace endQ ≠ "")
    (hps : libs.timeParse (TrimSpace startQ) = some ps)
    (hpe : libs.timeParse (TrimSpace endQ) = some pe)
    (hrev : ps.After pe) :
    (∀ s : Subscription, skipped ps pe s) ∧
    (∀ items : List Subscription, sumLoop ps pe items = 0) ∧
    CountSubscriptionSum libs db useridP startQ endQ serviceNameQ =
      (if db.healthy then ⟨200, .sum 0⟩ else ⟨500, .error "db error"⟩) := by
  have hall : ∀ items : List Subscription, sumLoop ps pe items = 0 := fun items =>
    sumLoop_eq_zero_of_all_skipped ps pe items (fun s _ => skipped_of_reversed hrev s)
  refine ⟨skipped_of_reversed hrev, hall, ?_⟩
  rw [CountSubscriptionSum_of_valid hid hu hs he hps hpe]
  unfold DB.FindCandidates
  by_cases hh : db.healthy = true
  · simp only [hh, if_true]
    rw [hall]
  · simp [hh]

/-- Instance of C8: the request `start=12-2024&end=01-2024` on a store holding an
open-ended subscription of the user is answered with status 200 and sum `0`. -/
theorem reversed_window_sum_zero_witness :
    (monthStart 2024 .December).After (monthStart 2024 .January) ∧
    CountSubscriptionSum sampleLibs
      (sampleDB [sampleSubscription 100 (monthStart 2024 .January) none])
      "7d9f1c2e-5b3a-4e6f-8a1b-2c3d4e5f6a7b" "12-2024" "01-2024" "" = ⟨200, .sum 0⟩ :=
  ⟨by decide,
    (reversed_window_sum_zero sampleLibs
      (sampleDB [sampleSubscription 100 (monthStart 2024 .January) none])
      "7d9f1c2e-5b3a-4e6f-8a1b-2c3d4e5f6a7b" "12-2024" "01-2024" ""
      "7d9f1c2e-5b3a-4e6f-8a1b-2c3d4e5f6a7b" (monthStart 2024 .December)
      (monthStart 2024 .January) (by decide) (by decide) (by decide) (by decide) (by decide)
      (by decide) (by decide)).2.2⟩

/-- C9. Whenever the overlap guard does not skip a subscription (the effective
start is not after the effective end), `diffMonthsInclusive` of the two is at
least `1`; and for a list whose prices are all non-negative the sum of the loop
is non-negative in exact integer arithmetic, machine-integer overflow left
aside.  The sum the loop returns in `int` is that exact sum, hence non-negative,
whenever the exact sum does not exceed the largest `int`. -/
theorem months_positive_when_not_skipped :
    (∀ (ps pe : Time) (s : Subscription), ¬ skipped ps pe s →
      1 ≤ diffMonthsInclusive (loopStart ps s) (loopEnd pe s)) ∧
    (∀ (ps pe : Time) (items : List Subscription), (∀ s ∈ items, 0 ≤ s.Price) →
      0 ≤ sumLoopExact ps pe items) ∧
    (∀ (ps pe : Time) (items : List Subscription), (∀ s ∈ items, 0 ≤ s.Price) →
      sumLoopExact ps pe items ≤ maxInt →
        sumLoop ps pe items = sumLoopExact ps pe items ∧ 0 ≤ sumLoop ps pe items) := by
  refine ⟨fun _ _ _ h => loopMonths_pos h, sumLoopExact_nonneg, ?_⟩
  intro ps pe items hp hmax
  have h0 := sumLoopExact_nonneg ps pe items hp
  have hmin : minInt ≤ sumLoopExact ps pe items := by
    have : minInt ≤ 0 := by decide
    omega
  rw [sumLoop_eq_exact_of_range hmin hmax]
  exact ⟨rfl, h0⟩

/-- Instance of C9: the subscription Jan-2024..Jun-2024 is not skipped for the
window Mar-2024..Dec-2024 and its month count, four, is at least one. -/
theorem months_positive_when_not_skipped_witness :
    ¬ skipped (monthStart 2024 .March) (monthStart 2024 .December)
      (sampleSubscription 100 (monthStart 2024 .January) (some (monthStart 2024 .June))) ∧
    1 ≤ diffMonthsInclusive
      (loopStart (monthStart 2024 .March)
        (sampleSubscription 100 (monthStart 2024 .January) (some (monthStart 2024 .June))))
      (loopEnd (monthStart 2024 .December)
        (sampleSubscription 100 (monthStart 2024 .January) (some (monthStart 2024 .June)))) :=
  ⟨by decide, months_positive_when_not_skipped.1 _ _ _ (by decide)⟩

/-- C10, as the source has it.  For a window with `periodStart <= periodEnd` and
a subscription whose end date is absent or not before its start date, the
store-side condition is exact: a subscription that satisfies it is not skipped by
the loop and is counted for at least one month, and its contribution is
`price * months` computed in the 64-bit `int`, the exact product whenever the
product lies in the range of `int`; and the subscription is counted if and only
if it satisfies the condition. -/
theorem candidate_exact (ps pe : Time) (s : Subscription)
    (hw : ¬ pe.Before ps) (hwf : wellFormed s) :
    (candidate ps pe s →
      ¬ skipped ps pe s ∧ 1 ≤ loopMonths ps pe s ∧
        contributionOf ps pe s = wrapInt (s.Price * loopMonths ps pe s) ∧
        (minInt ≤ s.Price * loopMonths ps pe s → s.Price * loopMonths ps pe s ≤ maxInt →
          contributionOf ps pe s = s.Price * loopMonths ps pe s)) ∧
    (candidate ps pe s ↔ ¬ skipped ps pe s) := by
  constructor
  · intro hc
    have hk := not_skipped_of_candidate hw hwf hc
    refine ⟨hk, loopMonths_pos hk, contributionOf_of_not_skipped hk, ?_⟩
    intro hlo hhi
    rw [contributionOf_of_not_skipped hk]
    exact wrapInt_of_range hlo hhi
  · constructor
    · exact not_skipped_of_candidate hw hwf
    · intro hk
      by_contra hc
      exact hk (skipped_of_not_candidate hc)

/-- Instance of C10: the subscription Jan-2024..Jun-2024 at price 100 satisfies
the condition for the window Mar-2024..Dec-2024, is counted for four months and
contributes 400. -/
theorem candidate_exact_witness :
    ¬ (monthStart 2024 .December).Before (monthStart 2024 .March) ∧
    wellFormed (sampleSubscription 100 (monthStart 2024 .January)
      (some (monthStart 2024 .June))) ∧
    candidate (monthStart 2024 .March) (monthStart 2024 .December)
      (sampleSubscription 100 (monthStart 2024 .January) (some (monthStart 2024 .June))) ∧
    1 ≤ loopMonths (monthStart 2024 .March) (monthStart 2024 .December)
      (sampleSubscription 100 (monthStart 2024 .January) (some (monthStart 2024 .June))) ∧
    contributionOf (monthStart 2024 .March) (monthStart 2024 .December)
      (sampleSubscription 100 (monthStart 2024 .January) (some (monthStart 2024 .June))) =
      100 * 4 :=
  ⟨by decide, by decide, by decide,
    ((candidate_exact (monthStart 2024 .March) (monthStart 2024 .December)
      (sampleSubscription 100 (monthStart 2024 .January) (some (monthStart 2024 .June)))
      (by decide) (by decide)).1 (by decide)).2.1,
    ((candidate_exact (monthStart 2024 .March) (monthStart 2024 .December)
      (sampleSubscription 100 (monthStart 2024 .January) (some (monthStart 2024 .June)))
      (by decide) (by decide)).1 (by decide)).2.2.2 (by decide) (by decide)⟩

/-- C10 as stated fails in its product: the open-ended subscription from Jan-2024
of price `9223372036854775807` is well formed and satisfies the store-side
condition for the window Jan-2024..Feb-2024; the loop counts two months for it and
its `int` product wraps around, so its contribution is `-2`, not
`price * months`. -/
theorem candidate_contribution_wraps_for_largest_price :
    ¬ (monthStart 2024 .February).Before (monthStart 2024 .January) ∧
    wellFormed largestPriceSubscription ∧
    candidate (monthStart 2024 .January) (monthStart 2024 .February)
      largestPriceSubscription ∧
    ¬ skipped (monthStart 2024 .January) (monthStart 2024 .February)
      largestPriceSubscription ∧
    loopMonths (monthStart 2024 .January) (monthStart 2024 .February)
      largestPriceSubscription = 2 ∧
    contributionOf (monthStart 2024 .January) (monthStart 2024 .February)
      largestPriceSubscription = -2 ∧
    contributionOf (monthStart 2024 .January) (monthStart 2024 .February)
      largestPriceSubscription ≠
      largestPriceSubscription.Price *
        loopMonths (monthStart 2024 .January) (monthStart 2024 .February)
          largestPriceSubscription := by
  refine ⟨by decide, by decide, by decide, by decide, by decide, by decide, by decide⟩

/-! ## Facts on the integers of the runtime and on the staged updates -/

theorem atoiDigits_range {neg : Bool} {ds : List Char} {p : Int}
    (h : atoiDigits neg ds = some p) : minInt ≤ p ∧ p ≤ maxInt := by
  unfold atoiDigits at h
  split at h
  · simp at h
  · split at h
    · simp at h
    · simp only [Option.ite_none_right_eq_some, Option.some.injEq] at h
      obtain ⟨hr, hp⟩ := h
      rw [← hp]
      exact hr

theorem Atoi_range {s : String} {p : Int} (h : Atoi s = some p) : minInt ≤ p ∧ p ≤ maxInt := by
  unfold Atoi at h
  split at h
  · simp at h
  · split_ifs at h <;> exact atoiDigits_range h

theorem Atoi_empty : Atoi "" = none := by decide

theorem Updates.len_setEndDate (u : Updates) (t : Time) : 0 < (u.setEndDate t).len := by
  simp only [Updates.len, Updates.setEndDate, Option.isSome_some, if_true]
  omega

theorem Updates.len_setStartDate (u : Updates) (t : Time) : 0 < (u.setStartDate t).len := by
  simp only [Updates.len, Updates.setStartDate, Option.isSome_some, if_true]
  omega

theorem Updates.len_setUserID (u : Updates) (v : String) : 0 < (u.setUserID v).len := by
  simp only [Updates.len, Updates.setUserID, Option.isSome_some, if_true]
  omega

theorem Updates.len_setPrice (u : Updates) (v : Int) : 0 < (u.setPrice v).len := by
  simp only [Updates.len, Updates.setPrice, Option.isSome_some, if_true]
  omega

theorem Updates.len_setServiceName (u : Updates) (v : String) :
    0 < (u.setServiceName v).len := by
  simp only [Updates.len, Updates.setServiceName, Option.isSome_some, if_true]
  omega

theorem Updates.len_le_setEndDate (u : Updates) (t : Time) : u.len ≤ (u.setEndDate t).len := by
  simp only [Updates.len, Updates.setEndDate, Option.isSome_some, if_true]
  split_ifs <;> omega

theorem Updates.len_le_setStartDate (u : Updates) (t : Time) :
    u.len ≤ (u.setStartDate t).len := by
  simp only [Updates.len, Updates.setStartDate, Option.isSome_some, if_true]
  split_ifs <;> omega

theorem Updates.len_le_setUserID (u : Updates) (v : String) :
    u.len ≤ (u.setUserID v).len := by
  simp only [Updates.len, Updates.setUserID, Option.isSome_some, if_true]
  split_ifs <;> omega

theorem Updates.len_le_setPrice (u : Updates) (v : Int) : u.len ≤ (u.setPrice v).len := by
  simp only [Updates.len, Updates.setPrice, Option.isSome_some, if_true]
  split_ifs <;> omega

theorem stageEndDate_spec {libs : Libs} {req : createSubscriptionRequest} {u4 : Updates} :
    (∀ resp, stageEndDate libs req u4 = .error resp → resp.status = 400) ∧
    (∀ u, stageEndDate libs req u4 = .ok u →
      u4.len ≤ u.len ∧ (u.len = 0 ↔ (u4.len = 0 ∧ TrimSpace req.EndDate = ""))) := by
  unfold stageEndDate
  by_cases h : TrimSpace req.EndDate = ""
  · simp only [h, ne_eq, not_true_eq_false, if_false]
    refine ⟨fun resp hr => (by cases hr), fun u hu => ?_⟩
    injection hu with hu
    subst hu
    simp
  · simp only [ne_eq, h, not_false_eq_true, if_true]
    cases libs.timeParse (TrimSpace req.EndDate) with
    | none =>
      refine ⟨fun resp hr => ?_, fun u hu => by cases hu⟩
      injection hr with hr
      rw [← hr]
    | some t =>
      refine ⟨fun resp hr => (by cases hr), fun u hu => ?_⟩
      injection hu with hu
      subst hu
      have := Updates.len_setEndDate u4 t
      have := Updates.len_le_setEndDate u4 t
      refine ⟨by omega, ?_⟩
      constructor
      · intro h0
        omega
      · intro h0
        exact h0.2.elim

theorem stageDates_spec {libs : Libs} {req : createSubscriptionRequest} {u3 : Updates} :
    (∀ resp, stageDates libs req u3 = .error resp → resp.status = 400) ∧
    (∀ u, stageDates libs req u3 = .ok u →
      u3.len ≤ u.len ∧ (u.len = 0 ↔
        (u3.len = 0 ∧ TrimSpace req.StartDate = "" ∧ TrimSpace req.EndDate = ""))) := by
  unfold stageDates
  by_cases h : TrimSpace req.StartDate = ""
  · simp only [h, ne_eq, not_true_eq_false, if_false, true_and]
    exact stageEndDate_spec
  · simp only [ne_eq, h, not_false_eq_true, if_true]
    cases libs.timeParse (TrimSpace req.StartDate) with
    | none =>
      refine ⟨fun resp hr => ?_, fun u hu => (by cases hu)⟩
      injection hr with hr
      rw [← hr]
    | some t =>
      have hE := @stageEndDate_spec libs req (u3.setStartDate t)
      refine ⟨hE.1, fun u hu => ?_⟩
      have h1 := (hE.2 u hu).1
      have := Updates.len_setStartDate u3 t
      have := Updates.len_le_setStartDate u3 t
      refine ⟨by omega, ?_⟩
      constructor
      · intro h0
        omega
      · intro h0
        exact h0.2.1.elim

theorem stageUpdates_spec {libs : Libs} {req : createSubscriptionRequest} :
    (∀ resp, stageUpdates libs req = .error resp → resp.status = 400) ∧
    (∀ u, stageUpdates libs req = .ok u → (u.len = 0 ↔ noFieldSupplied req)) := by
  unfold stageUpdates noFieldSupplied
  simp only
  have hu2 : ∀ u2 : Updates,
      u2 = (if req.Price ≠ 0 then
        (if TrimSpace req.ServiceName ≠ "" then
          Updates.empty.setServiceName (TrimSpace req.ServiceName) else Updates.empty).setPrice
            req.Price
        else (if TrimSpace req.ServiceName ≠ "" then
          Updates.empty.setServiceName (TrimSpace req.ServiceName) else Updates.empty)) →
      (u2.len = 0 ↔ (TrimSpace req.ServiceName = "" ∧ req.Price = 0)) := by
    intro u2 hu2
    subst hu2
    by_cases h1 : TrimSpace req.ServiceName = "" <;> by_cases h2 : req.Price = 0
    · simp [h1, h2, Updates.empty, Updates.len]
    · have := Updates.len_setPrice Updates.empty req.Price
      simp only [h1, h2, ne_eq, not_true_eq_false, not_false_eq_true, if_true, if_false,
        and_false, true_and]
      constructor
      · intro h0
        omega
      · intro h0
        exact absurd h0 (by simp)
    · have := Updates.len_setServiceName Updates.empty (TrimSpace req.ServiceName)
      simp only [h1, h2, ne_eq, not_true_eq_false, not_false_eq_true, if_true, if_false,
        and_true, false_and]
      constructor
      · intro h0
        omega
      · intro h0
        exact absurd h0 (by simp)
    · have := Updates.len_setPrice
        (Updates.empty.setServiceName (TrimSpace req.ServiceName)) req.Price
      simp only [h1, h2, ne_eq, not_true_eq_false, not_false_eq_true, if_true, if_false,
        and_false]
      constructor
      · intro h0
        omega
      · intro h0
        exact absurd h0 (by simp)
  generalize hgen : (if req.Price ≠ 0 then
        (if TrimSpace req.ServiceName ≠ "" then
          Updates.empty.setServiceName (TrimSpace req.ServiceName) else Updates.empty).setPrice
            req.Price
        else (if TrimSpace req.ServiceName ≠ "" then
          Updates.empty.setServiceName (TrimSpace req.ServiceName) else Updates.empty)) = u2
  have h2 := hu2 u2 hgen.symm
  by_cases h : TrimSpace req.UserID = ""
  · simp only [h, ne_eq, not_true_eq_false, if_false, true_and]
    have hD := @stageDates_spec libs req u2
    refine ⟨hD.1, fun u hu => ?_⟩
    rw [(hD.2 u hu).2, h2]
    tauto
  · simp only [ne_eq, h, not_false_eq_true, if_true, false_and, and_false]
    cases libs.uuidParse (TrimSpace req.UserID) with
    | none =>
      refine ⟨fun resp hr => ?_, fun u hu => (by cases hu)⟩
      injection hr with hr
      rw [← hr]
    | some v =>
      have hD := @stageDates_spec libs req (u2.setUserID (TrimSpace req.UserID))
      refine ⟨hD.1, fun u hu => ?_⟩
      have h1 := (hD.2 u hu).1
      have := Updates.len_setUserID u2 (TrimSpace req.UserID)
      constructor
      · intro h0
        omega
      · intro h0
        exact h0.elim

theorem stageUpdates_of_noField {libs : Libs} {req : createSubscriptionRequest}
    (h : noFieldSupplied req) : stageUpdates libs req = .ok Updates.empty := by
  obtain ⟨h1, h3, h4, h5, h2⟩ := h
  unfold stageUpdates stageDates stageEndDate
  simp [h1, h2, h3, h4, h5]

theorem Updates.len_empty : Updates.empty.len = 0 := rfl

theorem UpdateSubscription_of_noField {libs : Libs} {db : DB} {idParam id : String}
    {req : createSubscriptionRequest} (hid : libs.uuidParse idParam = some id)
    (h : noFieldSupplied req) :
    UpdateSubscription libs db idParam (some req) = (⟨204, .empty⟩, db) := by
  unfold UpdateSubscription
  simp [hid, stageUpdates_of_noField h, Updates.len_empty]

theorem UpdateSubscription_status {libs : Libs} {db : DB} {idParam id : String}
    {req : createSubscriptionRequest} (hid : libs.uuidParse idParam = some id) :
    ((UpdateSubscription libs db idParam (some req)).1.status = 204 → noFieldSupplied req) ∧
    ((UpdateSubscription libs db idParam (some req)).1.status = 200 →
      ¬ noFieldSupplied req ∧
        ∃ item, (UpdateSubscription libs db idParam (some req)).1.body = .subscription item) := by
  unfold UpdateSubscription
  simp only [hid]
  have hspec := @stageUpdates_spec libs req
  cases hst : stageUpdates libs req with
  | error resp =>
    have h400 := hspec.1 resp hst
    simp only
    constructor
    · intro h
      omega
    · intro h
      omega
  | ok u =>
    have hlen := hspec.2 u hst
    simp only
    by_cases h0 : u.len = 0
    · simp only [h0, if_true]
      refine ⟨fun _ => hlen.mp h0, fun h => ?_⟩
      exact absurd h (by decide)
    · simp only [h0, if_false]
      have hnf : ¬ noFieldSupplied req := fun hn => h0 (hlen.mpr hn)
      cases db.Updates id u with
      | none =>
        simp only
        exact ⟨fun h => absurd h (by decide), fun h => absurd h (by decide)⟩
      | some db1 =>
        simp only
        cases db1.First id with
        | none =>
          simp only
          exact ⟨fun h => absurd h (by decide), fun h => absurd h (by decide)⟩
        | some item =>
          simp only
          exact ⟨fun h => absurd h (by decide), fun _ => ⟨hnf, item, rfl⟩⟩

/-! ## Claims on pagination -/

/-- C5, as the source has it.  For every pair of query strings, `page` is the
parsed integer when `Atoi` succeeds with a value `> 0` and `1` otherwise, `limit`
is the parsed integer when `Atoi` succeeds with a value in `[1, 100]` and `10`
otherwise; the resolved page is `>= 1`, the resolved limit is in `[1, 100]`, and
the status of the response does not depend on the two strings.  The offset is
`(page - 1) * limit` reduced to the 64-bit `int`: it is the exact product, and
`>= 0`, whenever that product does not exceed the largest `int`, in particular
for every page up to `92233720368547759`. -/
theorem pagination_resolution (pStr lStr : String) :
    resolvePage pStr =
      (match Atoi pStr with
        | some p => if p > 0 then p else 1
        | none => 1) ∧
    resolveLimit lStr =
      (match Atoi lStr with
        | some l => if l > 0 ∧ l ≤ 100 then l else 10
        | none => 10) ∧
    1 ≤ resolvePage pStr ∧ resolvePage pStr ≤ maxInt ∧
    1 ≤ resolveLimit lStr ∧ resolveLimit lStr ≤ 100 ∧
    pageOffset (resolvePage pStr) (resolveLimit lStr) =
      wrapInt ((resolvePage pStr - 1) * resolveLimit lStr) ∧
    ((resolvePage pStr - 1) * resolveLimit lStr ≤ maxInt →
      pageOffset (resolvePage pStr) (resolveLimit lStr) =
          (resolvePage pStr - 1) * resolveLimit lStr ∧
        0 ≤ pageOffset (resolvePage pStr) (resolveLimit lStr)) ∧
    (resolvePage pStr ≤ 92233720368547759 →
      pageOffset (resolvePage pStr) (resolveLimit lStr) =
          (resolvePage pStr - 1) * resolveLimit lStr ∧
        0 ≤ pageOffset (resolvePage pStr) (resolveLimit lStr)) ∧
    (∀ (libs : Libs) (db : DB) (uq sq : String),
      (ListSubscriptions libs db pStr lStr uq sq).status =
        if TrimSpace uq ≠ "" ∧ libs.uuidParse (TrimSpace uq) = none then 400
        else if db.healthy then 200 else 500) := by
  have hpage : resolvePage pStr =
      (match Atoi pStr with
        | some p => if p > 0 then p else 1
        | none => 1) := by
    unfold resolvePage
    by_cases h : pStr = ""
    · subst h
      simp [Atoi_empty]
    · simp [h]
  have hlimit : resolveLimit lStr =
      (match Atoi lStr with
        | some l => if l > 0 ∧ l ≤ 100 then l else 10
        | none => 10) := by
    unfold resolveLimit
    by_cases h : lStr = ""
    · subst h
      simp [Atoi_empty]
    · simp [h]
  have hmax : maxInt = 9223372036854775807 := by
    unfold maxInt intSize
    norm_num
  have hmin : minInt = -9223372036854775808 := by
    unfold minInt intSize
    norm_num
  have hp : 1 ≤ resolvePage pStr ∧ resolvePage pStr ≤ maxInt := by
    rw [hpage]
    cases hA : Atoi pStr with
    | none =>
      simp only
      rw [hmax]
      omega
    | some p =>
      have hr := Atoi_range hA
      simp only
      split_ifs with h
      · exact ⟨by omega, hr.2⟩
      · rw [hmax]
        omega
  have hl : 1 ≤ resolveLimit lStr ∧ resolveLimit lStr ≤ 100 := by
    rw [hlimit]
    cases hA : Atoi lStr with
    | none =>
      simp only
      omega
    | some l =>
      simp only
      split_ifs with h
      · omega
      · omega
  have hoff : pageOffset (resolvePage pStr) (resolveLimit lStr) =
      wrapInt ((resolvePage pStr - 1) * resolveLimit lStr) := by
    unfold pageOffset
    rw [wrapInt_of_range (x := resolvePage pStr - 1) (by rw [hmin]; omega) (by omega)]
  have hexact : (resolvePage pStr - 1) * resolveLimit lStr ≤ maxInt →
      pageOffset (resolvePage pStr) (resolveLimit lStr) =
          (resolvePage pStr - 1) * resolveLimit lStr ∧
        0 ≤ pageOffset (resolvePage pStr) (resolveLimit lStr) := by
    intro hb
    have hnn : 0 ≤ (resolvePage pStr - 1) * resolveLimit lStr :=
      mul_nonneg (by omega) (by omega)
    rw [hoff, wrapInt_of_range (by rw [hmin]; omega) hb]
    exact ⟨rfl, hnn⟩
  refine ⟨hpage, hlimit, hp.1, hp.2, hl.1, hl.2, hoff, hexact, ?_, ?_⟩
  · intro hb
    apply hexact
    have h1 : (resolvePage pStr - 1) * resolveLimit lStr ≤ 92233720368547758 * 100 :=
      mul_le_mul (by omega) hl.2 (by omega) (by omega)
    rw [hmax]
    omega
  · intro libs db uq sq
    unfold ListSubscriptions
    simp only
    split_ifs <;> rfl

/-- Instance of C5: `page=3&limit=20` resolves to page 3, limit 20 and offset 40. -/
theorem pagination_resolution_witness :
    resolvePage "3" = 3 ∧ resolveLimit "20" = 20 ∧
    pageOffset (resolvePage "3") (resolveLimit "20") = (resolvePage "3" - 1) * resolveLimit "20" ∧
    pageOffset (resolvePage "3") (resolveLimit "20") = 40 :=
  ⟨by decide, by decide,
    ((pagination_resolution "3" "20").2.2.2.2.2.2.2.1 (by decide)).1, by decide⟩

/-- C5 as stated fails: the query `page=9223372036854775807&limit=10` parses, so
the resolved page is that number and the limit is 10, and the `int` product
`(page - 1) * limit` wraps around to `-20`: the offset is negative and differs
from the exact product. -/
theorem offset_wraps_for_huge_page :
    Atoi "9223372036854775807" = some 9223372036854775807 ∧
    resolvePage "9223372036854775807" = 9223372036854775807 ∧
    resolveLimit "10" = 10 ∧
    pageOffset (resolvePage "9223372036854775807") (resolveLimit "10") = -20 ∧
    ¬ (0 ≤ pageOffset (resolvePage "9223372036854775807") (resolveLimit "10")) ∧
    pageOffset (resolvePage "9223372036854775807") (resolveLimit "10") ≠
      (resolvePage "9223372036854775807" - 1) * resolveLimit "10" := by
  refine ⟨by decide, by decide, by decide, by decide, by decide, by decide⟩

/-! ## Claims on update and create -/

/-- C6. For an update request with a valid id and a parsable body, the staged
update set is empty exactly when `service_name`, `user_id`, `start_date` and
`end_date` are empty once trimmed and `price` is `0`.  In that case the handler
answers 204 without a body and leaves the store as it was, and 204 is answered in
no other case; a successful field change answers 200 with the record.  A request
that supplies only `price = 0` is such a no-op. -/
theorem update_without_fields_is_noop (libs : Libs) (db : DB) (idParam id : String)
    (req : createSubscriptionRequest) (hid : libs.uuidParse idParam = some id) :
    ((∃ u, stageUpdates libs req = .ok u ∧ u.len = 0) ↔ noFieldSupplied req) ∧
    (noFieldSupplied req →
      UpdateSubscription libs db idParam (some req) = (⟨204, .empty⟩, db)) ∧
    ((UpdateSubscription libs db idParam (some req)).1.status = 204 ↔ noFieldSupplied req) ∧
    ((UpdateSubscription libs db idParam (some req)).1.status = 200 →
      ¬ noFieldSupplied req ∧
        ∃ item, (UpdateSubscription libs db idParam (some req)).1.body = .subscription item) ∧
    UpdateSubscription libs db idParam (some ⟨"", 0, "", "", ""⟩) = (⟨204, .empty⟩, db) := by
  have hst := @UpdateSubscription_status libs db idParam id req hid
  refine ⟨⟨?_, ?_⟩, UpdateSubscription_of_noField hid, ⟨hst.1, ?_⟩, hst.2, ?_⟩
  · rintro ⟨u, hu, h0⟩
    exact ((@stageUpdates_spec libs req).2 u hu).mp h0
  · intro h
    exact ⟨Updates.empty, stageUpdates_of_noField h, Updates.len_empty⟩
  · intro h
    rw [UpdateSubscription_of_noField hid h]
  · exact UpdateSubscription_of_noField hid ⟨by decide, by decide, by decide, by decide, rfl⟩

/-- Instance of C6: a body whose strings are blank and whose price is 0, sent for
the id of a stored row, is answered with 204 and the store is unchanged. -/
theorem update_without_fields_is_noop_witness :
    sampleLibs.uuidParse "3f2b8c1a-9d4e-4f6a-b7c8-1e2d3c4b5a69" =
      some "3f2b8c1a-9d4e-4f6a-b7c8-1e2d3c4b5a69" ∧
    UpdateSubscription sampleLibs (sampleDB [sampleSubscription 100 (monthStart 2024 .January) none])
      "3f2b8c1a-9d4e-4f6a-b7c8-1e2d3c4b5a69" (some ⟨"  ", 0, "", " ", ""⟩) =
      (⟨204, .empty⟩, sampleDB [sampleSubscription 100 (monthStart 2024 .January) none]) :=
  ⟨by decide,
    (update_without_fields_is_noop sampleLibs
      (sampleDB [sampleSubscription 100 (monthStart 2024 .January) none])
      "3f2b8c1a-9d4e-4f6a-b7c8-1e2d3c4b5a69" "3f2b8c1a-9d4e-4f6a-b7c8-1e2d3c4b5a69"
      ⟨"  ", 0, "", " ", ""⟩ (by decide)).2.1
      ⟨by decide, by decide, by decide, by decide, rfl⟩⟩

/-- C7 on the source.  A create request whose dates parse and whose `user_id` is
not an identifier makes `uuid.Must` panic: nothing is written, and the
application answers with status 500, not 400.  The same `user_id` sent to
`UpdateSubscription` is answered with 400. -/
theorem create_invalid_user_id_is_server_error :
    (∀ (libs : Libs) (db : DB) (req : createSubscriptionRequest) (t : Time),
      libs.timeParse req.StartDate = some t →
      (TrimSpace req.EndDate = "" ∨ libs.timeParse req.EndDate ≠ none) →
      libs.uuidParse req.UserID = none →
        CreateSubscription libs db (some req) = (.panicked, db) ∧
        (serve (CreateSubscription libs db (some req)).1).status = 500) ∧
    CreateSubscription sampleLibs (sampleDB []) (some ⟨"music", 100, "not-a-uuid", "01-2024", ""⟩)
      = (.panicked, sampleDB []) ∧
    serve (CreateSubscription sampleLibs (sampleDB [])
      (some ⟨"music", 100, "not-a-uuid", "01-2024", ""⟩)).1
      = ⟨500, .error "internal server error"⟩ ∧
    (UpdateSubscription sampleLibs (sampleDB []) "3f2b8c1a-9d4e-4f6a-b7c8-1e2d3c4b5a69"
      (some ⟨"", 0, "not-a-uuid", "", ""⟩)).1 = ⟨400, .error "invalid user_id"⟩ := by
  refine ⟨?_, by decide, by decide, by decide⟩
  intro libs db req t ht he hu
  have hc : CreateSubscription libs db (some req) = (.panicked, db) := by
    unfold CreateSubscription
    have hg : ¬ (TrimSpace req.EndDate ≠ "" ∧ libs.timeParse req.EndDate = none) := by
      rintro ⟨h1, h2⟩
      rcases he with he | he
      · exact h1 he
      · exact he h2
    simp only [ht, hu, hg, if_false]
  rw [hc]
  exact ⟨rfl, rfl⟩

/-! ## The sum over adjacent windows -/

theorem before_iff_monthIndex {t u : Time} (ht : t.monthNormalized) (hu : u.monthNormalized) :
    t.Before u ↔ monthIndex t < monthIndex u := by
  have h1 := Month.toInt_pos t.month
  have h2 := Month.toInt_le t.month
  have h3 := Month.toInt_pos u.month
  have h4 := Month.toInt_le u.month
  obtain ⟨htd, htn⟩ := ht
  obtain ⟨hud, hun⟩ := hu
  simp only [Time.Before, monthIndex]
  omega

theorem diffMonthsInclusive_eq_index (x y : Time) :
    diffMonthsInclusive x y = monthIndex y - monthIndex x + 1 := by
  simp only [diffMonthsInclusive, monthIndex]
  omega

theorem nextMonth_normalized (t : Time) : (nextMonth t).monthNormalized := ⟨rfl, rfl⟩

theorem monthIndex_nextMonth (t : Time) : monthIndex (nextMonth t) = monthIndex t + 1 := by
  unfold nextMonth monthIndex monthStart
  cases h : t.month <;> simp [Month.next, Month.toInt] <;> omega

theorem contributionExact_eq_index {ps pe : Time} {s : Subscription}
    (hps : ps.monthNormalized) (hpe : pe.monthNormalized) (hs : datesNormalized s) :
    contributionExact ps pe s = s.Price *
      max 0 ((match s.EndDate with
              | none => monthIndex pe
              | some e => min (monthIndex pe) (monthIndex e)) -
        max (monthIndex s.StartDate) (monthIndex ps) + 1) := by
  obtain ⟨hS, hE⟩ := hs
  have hstart : (loopStart ps s).monthNormalized ∧
      monthIndex (loopStart ps s) = max (monthIndex s.StartDate) (monthIndex ps) := by
    unfold loopStart maxTime Time.After
    by_cases h : ps.Before s.StartDate
    · have h2 := (before_iff_monthIndex hps hS).mp h
      simp only [h, if_true]
      exact ⟨hS, by omega⟩
    · have h2 : ¬ monthIndex ps < monthIndex s.StartDate :=
        fun h3 => h ((before_iff_monthIndex hps hS).mpr h3)
      simp only [h, if_false]
      exact ⟨hps, by omega⟩
  have hend : (loopEnd pe s).monthNormalized ∧
      monthIndex (loopEnd pe s) = (match s.EndDate with
              | none => monthIndex pe
              | some e => min (monthIndex pe) (monthIndex e)) := by
    unfold loopEnd
    cases hEd : s.EndDate with
    | none => exact ⟨hpe, rfl⟩
    | some e =>
      rw [hEd] at hE
      simp only at hE ⊢
      by_cases h : e.Before pe
      · have h2 := (before_iff_monthIndex hE hpe).mp h
        simp only [h, if_true]
        exact ⟨hE, by omega⟩
      · have h2 : ¬ monthIndex e < monthIndex pe :=
          fun h3 => h ((before_iff_monthIndex hE hpe).mpr h3)
        simp only [h, if_false]
        exact ⟨hpe, by omega⟩
  rw [← hend.2, ← hstart.2]
  by_cases hk : skipped ps pe s
  · rw [contributionExact_of_skipped hk]
    have h2 := (before_iff_monthIndex hend.1 hstart.1).mp hk
    rw [max_eq_left (by omega)]
    simp
  · rw [contributionExact_of_not_skipped hk]
    have h2 : ¬ monthIndex (loopEnd pe s) < monthIndex (loopStart ps s) :=
      fun h3 => hk ((before_iff_monthIndex hend.1 hstart.1).mpr h3)
    unfold loopMonths
    rw [diffMonthsInclusive_eq_index, max_eq_right (by omega)]

theorem contributionExact_adjacent {a b c : Time} {s : Subscription}
    (ha : a.monthNormalized) (hb : b.monthNormalized) (hc : c.monthNormalized)
    (hab : ¬ b.Before a) (hbc : b.Before c) (hs : datesNormalized s) :
    contributionExact a c s = contributionExact a b s + contributionExact (nextMonth b) c s := by
  have h1 : monthIndex a ≤ monthIndex b := by
    have := (before_iff_monthIndex hb ha).not.mp hab
    omega
  have h2 := (before_iff_monthIndex hb hc).mp hbc
  have h3 := monthIndex_nextMonth b
  rw [contributionExact_eq_index ha hc hs, contributionExact_eq_index ha hb hs,
    contributionExact_eq_index (nextMonth_normalized b) hc hs, ← mul_add, h3]
  congr 1
  cases s.EndDate with
  | none =>
    simp only
    omega
  | some e =>
    simp only
    omega

/-- C11. The sum is additive over adjacent windows: for months `a <= b < c`, with
`nextMonth b` the calendar month following `b`, and for every list of
subscriptions whose dates are month-normalized, the sum the loop of
`CountSubscriptionSum` computes for the window `[a, c]` is, in exact integer
arithmetic, the sum it computes for `[a, b]` plus the sum it computes for
`[nextMonth b, c]`.  In the `int` of the source the same holds up to the
reduction to the range of `int`. -/
theorem sum_additive_over_adjacent_windows (a b c : Time) (items : List Subscription)
    (ha : a.monthNormalized) (hb : b.monthNormalized) (hc : c.monthNormalized)
    (hab : ¬ b.Before a) (hbc : b.Before c)
    (hitems : ∀ s ∈ items, datesNormalized s) :
    sumLoopExact a c items = sumLoopExact a b items + sumLoopExact (nextMonth b) c items ∧
    sumLoop a c items = wrapInt (sumLoop a b items + sumLoop (nextMonth b) c items) := by
  have hexact : sumLoopExact a c items =
      sumLoopExact a b items + sumLoopExact (nextMonth b) c items := by
    induction items with
    | nil => rfl
    | cons s rest ih =>
      have hs := hitems s (List.mem_cons_self s rest)
      have hrest := ih (fun t ht => hitems t (List.mem_cons_of_mem s ht))
      rw [sumLoopExact_cons, sumLoopExact_cons, sumLoopExact_cons, hrest,
        contributionExact_adjacent ha hb hc hab hbc hs]
      omega
  refine ⟨hexact, ?_⟩
  rw [sumLoop_eq_wrapInt_exact a c, sumLoop_eq_wrapInt_exact a b,
    sumLoop_eq_wrapInt_exact (nextMonth b) c, wrapInt_add_wrapInt, hexact]

/-- Instance of C11 across a year boundary: with a subscription
Mar-2024..Feb-2025 at price 100 and an open-ended one from Nov-2024 at price 50,
the window Jan-2024..Jun-2025 gives 1600, which is 1100 for Jan-2024..Dec-2024
plus 500 for Jan-2025..Jun-2025. -/
theorem sum_additive_over_adjacent_windows_witness :
    nextMonth (monthStart 2024 .December) = monthStart 2025 .January ∧
    sumLoopExact (monthStart 2024 .January) (monthStart 2025 .June)
      [sampleSubscription 100 (monthStart 2024 .March) (some (monthStart 2025 .February)),
        sampleSubscription 50 (monthStart 2024 .November) none] = 1600 ∧
    sumLoopExact (monthStart 2024 .January) (monthStart 2024 .December)
      [sampleSubscription 100 (monthStart 2024 .March) (some (monthStart 2025 .February)),
        sampleSubscription 50 (monthStart 2024 .November) none] = 1100 ∧
    sumLoopExact (monthStart 2025 .January) (monthStart 2025 .June)
      [sampleSubscription 100 (monthStart 2024 .March) (some (monthStart 2025 .February)),
        sampleSubscription 50 (monthStart 2024 .November) none] = 500 ∧
    sumLoop (monthStart 2024 .January) (monthStart 2025 .June)
      [sampleSubscription 100 (monthStart 2024 .March) (some (monthStart 2025 .February)),
        sampleSubscription 50 (monthStart 2024 .November) none] = 1600 ∧
    sumLoopExact (monthStart 2024 .January) (monthStart 2025 .June)
      [sampleSubscription 100 (monthStart 2024 .March) (some (monthStart 2025 .February)),
        sampleSubscription 50 (monthStart 2024 .November) none] =
      sumLoopExact (monthStart 2024 .January) (monthStart 2024 .December)
        [sampleSubscription 100 (monthStart 2024 .March) (some (monthStart 2025 .February)),
          sampleSubscription 50 (monthStart 2024 .November) none] +
      sumLoopExact (nextMonth (monthStart 2024 .December)) (monthStart 2025 .June)
        [sampleSubscription 100 (monthStart 2024 .March) (some (monthStart 2025 .February)),
          sampleSubscription 50 (monthStart 2024 .November) none] :=
  ⟨by decide, by decide, by decide, by decide, by decide,
    (sum_additive_over_adjacent_windows (monthStart 2024 .January)
      (monthStart 2024 .December) (monthStart 2025 .June)
      [sampleSubscription 100 (monthStart 2024 .March) (some (monthStart 2025 .February)),
        sampleSubscription 50 (monthStart 2024 .November) none]
      (by decide) (by decide) (by decide) (by decide) (by decide) (by decide)).1⟩

end Subscriptions
